import Mathlib

/-!
# mapx grids: grid coordinate system definition and transformations

A shallow embedding of `grids.c` (`init_grid`, `close_grid`, `forward_grid`,
`inverse_grid`) and of the decoders of `keyval.c` (`get_field_keyval`,
`get_value_keyval`, `boolean_keyval`, `lat_lon_keyval`).

Conventions of the embedding.

* C `float` values are the elements of a type `F`, and the floating-point
  operations the sources perform are the fields of a record `C_float F`; the
  `%f` conversion of the C library is a function handed to the functions
  that scan text. Nothing is assumed of either, so what is proved of the
  functions holds whatever the arithmetic rounds to, overflows to or makes of
  NaN, and whatever literals the library accepts. Two instances are used to
  evaluate: `exact_arith`, the exact arithmetic of the rationals, and
  `extended_arith`, exact arithmetic with the two infinities and NaN.
* An output parameter (`float *r`) is an extra argument holding the value the
  caller's variable had before the call, and an extra component of the result
  holding its value after the call.
* The map projection (`mapx.c`) is not part of these sources; a projection
  instance is a record of the three functions `grids.c` calls on it.
-/

namespace Mapx

/-! ## Constants of `define.h` -/

/-- Modelled from the spec: `define.h` is not among the sources; the spec's
boolean answer "true" is the C truth value. -/
def TRUE : Int := 1

/-- Modelled from the spec: `define.h` is not among the sources; the spec's
boolean answer "false" is the C truth value. -/
def FALSE : Int := 0

/-- The value of the `<stdio.h>` constant `EOF`, which `sscanf` returns on an
input failure before any conversion. -/
def EOF : Int := -1

/-! ## The C library pieces `init_grid` uses

A stream is the unread remainder of an in-memory text with its end-of-file
and error indicators. Reads from it do not fault, so the error indicator
keeps the value it had when the stream was opened. A character array is the
list of characters it holds; when it is read as a C string it ends before
its first NUL. -/

/-- An open `FILE`: the unread characters and the two stream indicators. -/
structure FILE where
  data : List Char
  eof : Bool
  err : Bool
  deriving DecidableEq

/-- The call `feof(fp)`. -/
def feof (fp : FILE) : Bool := fp.eof

/-- The call `ferror(fp)`. -/
def ferror (fp : FILE) : Bool := fp.err

/-- The reading loop of `fgets`: with room for `k` more characters, take
characters from the stream until a newline has been taken, the room is used
up, or the stream is exhausted. The result is the characters taken, the
unread remainder, and whether the end of the stream was hit. -/
def read_line : Nat → List Char → List Char × List Char × Bool
  | 0, d => ([], d, false)
  | _ + 1, [] => ([], [], true)
  | k + 1, c :: d =>
    if c = '\n' then ([c], d, false)
    else
      match read_line k d with
      | (l, rest, hit) => (c :: l, rest, hit)

/-- The call `fgets(readln, n, fp)` as the new contents of `readln` and the
new stream state: at most `n - 1` characters are read, ending after a
newline; when the end of the stream is hit the end-of-file indicator is set,
and when it is hit before any character was read the array is left as it
was (the call returns `NULL`, which `init_grid` ignores). -/
def fgets (readln : List Char) (n : Nat) (fp : FILE) : List Char × FILE :=
  match read_line (n - 1) fp.data with
  | (l, rest, hit) =>
    (if hit ∧ l = [] then readln else l,
     { data := rest, eof := fp.eof || hit, err := fp.err })

/-- The `<ctype.h>` predicate `isspace` in the C locale. -/
def isspace (c : Char) : Bool :=
  c = ' ' || c = '\t' || c = '\n' || c = '\x0b' || c = '\x0c' || c = '\r'

/-- The `<ctype.h>` predicate `isdigit`. -/
def isdigit (c : Char) : Bool := decide ('0' ≤ c) && decide (c ≤ '9')

/-- The characters of a character array read as a C string. -/
def cstr (buf : List Char) : List Char := buf.takeWhile (fun c => c ≠ '\x00')

/-- Skipping of white space, as every `scanf` conversion but `%c` does first. -/
def skip_space (s : List Char) : List Char := s.dropWhile isspace

/-- The number a string of decimal digits denotes. -/
def digits_value (ds : List Char) : Nat :=
  ds.foldl (fun n c => 10 * n + (c.toNat - '0'.toNat)) 0

/-- An optional sign: whether it is a minus, and the rest of the input. -/
def scan_sign (s : List Char) : Bool × List Char :=
  match s with
  | [] => (false, [])
  | c :: t => if c = '-' then (true, t) else if c = '+' then (false, t) else (false, c :: t)

/-- The exact value of a decimal floating literal with digits `m`, `fl`
digits after the point and decimal exponent `e` (negative when `eneg`). -/
def float_value (neg : Bool) (m fl : Nat) (eneg : Bool) (e : Nat) : ℚ :=
  let x : ℚ := if eneg then (m : ℚ) / (10 ^ (fl + e) : Nat) else ((m * 10 ^ e : Nat) : ℚ) / (10 ^ fl : Nat)
  if neg then -x else x

/-- A `%f` conversion for plain decimal literals, with exact values, used to
evaluate the functions on concrete text: an optional sign, a non-empty run of
digits optionally containing a decimal point, an optional exponent part. The
input item is the longest run of characters that is, or is a prefix of, such
a literal; the conversion fails (`none`) when the item is not a complete
literal, and otherwise yields the value and the unread input. The functions
below do not depend on it: they take the conversion as a parameter. -/
def scan_float (s : List Char) : Option (ℚ × List Char) :=
  match scan_sign s with
  | (neg, s1) =>
    let ip := s1.takeWhile isdigit
    let s2 := s1.dropWhile isdigit
    let fs : List Char × List Char :=
      match s2 with
      | [] => ([], [])
      | c :: t => if c = '.' then (t.takeWhile isdigit, t.dropWhile isdigit) else ([], c :: t)
    if ip = [] ∧ fs.1 = [] then none
    else
      let m := digits_value (ip ++ fs.1)
      match fs.2 with
      | [] => some (float_value neg m fs.1.length false 0, [])
      | c :: t =>
        if c = 'e' ∨ c = 'E' then
          match scan_sign t with
          | (eneg, s4) =>
            let ed := s4.takeWhile isdigit
            if ed = [] then none
            else some (float_value neg m fs.1.length eneg (digits_value ed), s4.dropWhile isdigit)
        else some (float_value neg m fs.1.length false 0, c :: t)

/-- The call `sscanf(readln, "%s", filename)`: the returned count and the new
contents of `filename`, which is left as it was on an input failure. -/
def sscanf_s (readln filename : List Char) : Int × List Char :=
  let s1 := skip_space (cstr readln)
  if s1 = [] then (EOF, filename) else (1, s1.takeWhile (fun c => !isspace c))

/-! ## Floating point

The floating-point operations of the sources and the library's `%f`
conversion are taken as given. -/

/-- The floating-point operations `grids.c` and `keyval.c` perform on values
of type `float`, as the C implementation carries them out. -/
structure C_float (F : Type) where
  /-- The sum `x + y`. -/
  add : F → F → F
  /-- The difference `x - y`. -/
  sub : F → F → F
  /-- The product `x * y`. -/
  mul : F → F → F
  /-- The quotient `x / y`. -/
  div : F → F → F
  /-- The negation `-x`. -/
  neg : F → F
  /-- An integer constant (`512`, `64`) converted to `float`. -/
  of_nat : Nat → F
  /-- The expression `x/2.` stored in a `float`. -/
  half : F → F
  /-- The comparison `x <= -0.5`. -/
  le_neg_half : F → Bool
  /-- The comparison `x >= e - 0.5`. -/
  ge_minus_half : F → F → Bool

/-- One `%f` conversion of the C library on input whose leading white space
has been skipped: the value stored and the unread input, or `none` when the
conversion fails. -/
abbrev Scan_f (F : Type) : Type := List Char → Option (F × List Char)

/-- The call `sscanf(readln, "%f %f", &f1, &f2)`: the returned count and the
new values of `f1` and `f2`; a variable whose conversion did not take place
keeps its value. A failed conversion is counted as a matching failure. -/
def sscanf_f_f {F : Type} (scan : Scan_f F) (readln : List Char) (f1 f2 : F) : Int × F × F :=
  let s1 := skip_space (cstr readln)
  if s1 = [] then (EOF, f1, f2)
  else
    match scan s1 with
    | none => (0, f1, f2)
    | some (x, r) =>
      let r1 := skip_space r
      if r1 = [] then (1, x, f2)
      else
        match scan r1 with
        | none => (1, x, f2)
        | some (y, _) => (2, x, y)

/-! ## The projection instance and the grid record -/

/-- Modelled from the spec: `mapx.h` and `mapx.c` are not among the sources.
The projection engine interface consumed by the grid layer:
`forward(handle, lat, lon) -> (u, v, status)`,
`inverse(handle, u, v) -> (lat, lon, status)`,
`within_domain(handle, lat, lon) -> bool`.
`forward_mapx` is handed two uninitialised locals, so its results depend on
`lat, lon` only; `inverse_mapx` is handed the caller's `lat, lon` variables,
whose previous contents are its last two arguments. -/
structure mapx_class (F : Type) where
  /-- The call `forward_mapx(this, lat, lon, &u, &v)`: status, then `u`, `v`. -/
  forward_mapx : F → F → Int × F × F
  /-- The call `inverse_mapx(this, u, v, lat, lon)`: status, then `*lat`, `*lon`. -/
  inverse_mapx : F → F → F → F → Int × F × F
  /-- The call `within_mapx(this, lat, lon)`. -/
  within_mapx : F → F → Int

/-- Modelled from the spec: `grids.h` is not among the sources. The members
of `grid_class` that `grids.c` reads and writes: the open parameter file and
its name, the owned projection instance (never `NULL` in a grid that
`init_grid` returned) and the six numeric parameters; the extents are
floating-point. -/
structure grid_class (F : Type) where
  gpd_file : FILE
  gpd_filename : List Char
  mapx : mapx_class F
  cols : F
  rows : F
  cols_per_map_unit : F
  rows_per_map_unit : F
  map_origin_col : F
  map_origin_row : F

/-! ## `forward_grid` and `inverse_grid` -/

/-- The function `forward_grid(this, lat, lon, &r, &s)`. The arguments `r s`
are the contents of the caller's variables before the call; the result is
the returned `int` followed by the contents of `*r` and `*s` afterwards. -/
def forward_grid {F : Type} (A : C_float F) (this : grid_class F) (lat lon : F) (r s : F) :
    Int × F × F :=
  match this.mapx.forward_mapx lat lon with
  | (status, u, v) =>
    if status ≠ 0 then (FALSE, r, s)
    else
      let r1 := A.add this.map_origin_col (A.mul u this.cols_per_map_unit)
      let s1 := A.sub this.map_origin_row (A.mul v this.rows_per_map_unit)
      if A.le_neg_half r1 || A.ge_minus_half r1 this.cols
          || A.le_neg_half s1 || A.ge_minus_half s1 this.rows then
        (FALSE, r1, s1)
      else
        (TRUE, r1, s1)

/-- The function `inverse_grid(this, r, s, &lat, &lon)`. The arguments
`lat lon` are the contents of the caller's variables before the call; the
result is the returned `int` followed by `*lat` and `*lon` afterwards. -/
def inverse_grid {F : Type} (A : C_float F) (this : grid_class F) (r s : F) (lat lon : F) :
    Int × F × F :=
  let u := A.div (A.sub r this.map_origin_col) this.cols_per_map_unit
  let v := A.div (A.neg (A.sub s this.map_origin_row)) this.rows_per_map_unit
  match this.mapx.inverse_mapx u v lat lon with
  | (status, lat1, lon1) =>
    if status ≠ 0 then (FALSE, lat1, lon1)
    else (this.mapx.within_mapx lat1 lon1, lat1, lon1)

/-! ## `init_grid` and `close_grid` -/

/-- What the grid layer asks of its surroundings: the constant `MAX_STRING`
of `define.h`, the path-searching `search_path_fopen` (which yields the text
of the file it opened, or nothing when no candidate opens) and the
projection loader `init_mapx`; none of them is among the sources. -/
structure Host (F : Type) where
  MAX_STRING : Nat
  search_path_fopen : List Char → String → String → Option (List Char)
  init_mapx : List Char → Option (mapx_class F)

/-- The indeterminate initial contents of the automatic variables of
`init_grid`. -/
structure Locals (F : Type) where
  f1 : F
  f2 : F
  filename : List Char
  readln : List Char

/-- A line written to `stderr`. -/
inductive Diag where
  | perror (s : List Char)
  | fprintf (format : String) (args : List (List Char))

/-- A resource given back by `close_grid`. -/
inductive Release where
  | fclose
  | free_gpd_filename
  | close_mapx (present : Bool)
  | free_grid_class
  deriving DecidableEq

/-- The members of a `grid_class` record that own a resource, each of which
may still be `NULL` while `init_grid` is filling the record. -/
structure grid_owned (F : Type) where
  gpd_file : Option FILE
  gpd_filename : Option (List Char)
  mapx : Option (mapx_class F)

/-- The function `close_grid(this)`, as the list of resources it gives back,
in order; `close_mapx` is called whether or not the projection is `NULL`. -/
def close_grid {F : Type} (this : Option (grid_owned F)) : List Release :=
  match this with
  | none => []
  | some g =>
    (if g.gpd_file.isSome then [Release.fclose] else [])
      ++ (if g.gpd_filename.isSome then [Release.free_gpd_filename] else [])
      ++ [Release.close_mapx g.mapx.isSome, Release.free_grid_class]

/-- What a call of `init_grid` leaves behind: the returned pointer, the lines
written to `stderr`, and the resources released on the way out. -/
structure Outcome (F : Type) where
  result : Option (grid_class F)
  stderr : List Diag
  released : List Release

/-- The function `init_grid(grid_filename)`. Storage allocation is taken to
succeed; `auto` is what the automatic variables hold on entry. -/
def init_grid {F : Type} (A : C_float F) (scan : Scan_f F) (host : Host F) (auto : Locals F)
    (grid_filename : List Char) : Outcome F :=
  let gpd_filename := grid_filename.take host.MAX_STRING
  match host.search_path_fopen gpd_filename "PATHGPD" "r" with
  | none =>
    { result := none
      stderr := [Diag.fprintf "init_grid: error opening parameters file.\n" [],
                 Diag.perror grid_filename]
      released := close_grid (some (⟨none, some gpd_filename, none⟩ : grid_owned F)) }
  | some text =>
    let fp0 : FILE := { data := text, eof := false, err := false }
    match fgets auto.readln 256 fp0 with
    | (readln1, fp1) =>
    match sscanf_s readln1 auto.filename with
    | (_, filename) =>
    match host.init_mapx filename with
    | none =>
      { result := none
        stderr := []
        released := close_grid (some (⟨some fp1, some gpd_filename, none⟩ : grid_owned F)) }
    | some mapx =>
      match fgets readln1 256 fp1 with
      | (readln2, fp2) =>
      match sscanf_f_f scan readln2 auto.f1 auto.f2 with
      | (ios2, f1a, f2a) =>
      let cols : F := if ios2 ≥ 1 then f1a else A.of_nat 512
      let rows : F := if ios2 ≥ 2 then f2a else A.of_nat 512
      match fgets readln2 256 fp2 with
      | (readln3, fp3) =>
      match sscanf_f_f scan readln3 f1a f2a with
      | (ios3, f1b, f2b) =>
      let cols_per_map_unit : F := if ios3 ≥ 1 then f1b else A.of_nat 64
      let rows_per_map_unit : F := if ios3 ≥ 2 then f2b else cols_per_map_unit
      match fgets readln3 256 fp3 with
      | (readln4, fp4) =>
      match sscanf_f_f scan readln4 f1b f2b with
      | (ios4, f1c, f2c) =>
      let map_origin_col : F := if ios4 ≥ 1 then f1c else A.half cols
      let map_origin_row : F := if ios4 ≥ 2 then f2c else A.half rows
      if ferror fp4 || feof fp4 then
        { result := none
          stderr :=
            Diag.fprintf "init_grid: error reading parameters file.\n" []
              :: (if feof fp4 then [Diag.fprintf "%s: unexpected end of file.\n" [grid_filename]]
                  else [Diag.perror grid_filename])
          released := close_grid (some (⟨some fp4, some gpd_filename, some mapx⟩ : grid_owned F)) }
      else
        { result := some
            { gpd_file := fp4
              gpd_filename := gpd_filename
              mapx := mapx
              cols := cols
              rows := rows
              cols_per_map_unit := cols_per_map_unit
              rows_per_map_unit := rows_per_map_unit
              map_origin_col := map_origin_col
              map_origin_row := map_origin_row }
          stderr := []
          released := [] }

/-! ## keyval: the "keyword: value" decoder

A C string argument is the list of its characters; a pointer into a string is
an offset from its start. A call whose behaviour the C language leaves
undefined has no result (`none`). Storage allocation is taken to succeed. -/

/-- The `<ctype.h>` function `toupper` in the C locale. -/
def toupper (c : Char) : Char := c.toUpper

/-- Modelled from the spec: the macro `streq` of `define.h` is not among the
sources; the decoding accepts exactly the listed words, so it is equality of
strings. -/
def streq (a b : List Char) : Bool := a = b

/-- The call `strchr(s, c)` as the offset of the first `c` in `s`; the
terminating NUL counts as part of the string, so looking for NUL finds
the end. -/
def strchr : List Char → Char → Option Nat
  | [], c => if c = '\x00' then some 0 else none
  | a :: t, c => if a = c then some 0 else (strchr t c).map (fun i => i + 1)

/-- The call `strstr(s, key)` as the offset of the first occurrence of `key`
in `s`. -/
def strstr : List Char → List Char → Option Nat
  | [], key => if key = [] then some 0 else none
  | c :: t, key => if key.isPrefixOf (c :: t) then some 0 else (strstr t key).map (fun i => i + 1)

/-- The call `strpbrk(s, accept)` as the offset of the first character of `s`
that occurs in `accept`. -/
def strpbrk : List Char → List Char → Option Nat
  | [], _ => none
  | c :: t, accept => if accept.contains c then some 0 else (strpbrk t accept).map (fun i => i + 1)

/-- The call `strspn(s, accept)`: the length of the longest initial run of
characters of `accept`. -/
def strspn (s accept : List Char) : Nat := (s.takeWhile (fun c => accept.contains c)).length

/-- The call `strcspn(s, reject)`: the length of the longest initial run of
characters not in `reject`. -/
def strcspn (s reject : List Char) : Nat := (s.takeWhile (fun c => !reject.contains c)).length

/-- The call `sscanf(number, "%f", value)`: the returned count and the new
content of `*value`, which is left as it was when nothing is converted. -/
def sscanf_f {F : Type} (scan : Scan_f F) (number : List Char) (value : F) : Int × F :=
  let s1 := skip_space (cstr number)
  if s1 = [] then (EOF, value)
  else
    match scan s1 with
    | none => (0, value)
    | some (x, _) => (1, x)

/-- The function `get_field_keyval(label, keyword, default_string)`: the
returned string (`none` for `NULL`) and the lines written to `stderr`. When
the keyword is found but no colon follows, `strchr` yields `NULL` and the
source computes with `NULL + 1`: no result. -/
def get_field_keyval (label keyword : List Char) (default_string : Option (List Char)) :
    Option (Option (List Char) × List Diag) :=
  match strstr label keyword with
  | none =>
    match default_string with
    | none => some (none, [Diag.fprintf "get_field_keyval: <%s> not found\n" [keyword]])
    | some d => some (some d, [])
  | some i =>
    match strchr (label.drop i) ':' with
    | none => none
    | some j =>
      let field_start := (label.drop i).drop (j + 1)
      let field_start := field_start.drop (strspn field_start [' ', '\t'])
      let field_length := strcspn field_start [';', '\n']
      let field_length := if 0 = field_length then field_start.length else field_length
      some (some (field_start.take field_length), [])

/-- The function `boolean_keyval(field_ptr, value)`: the returned count and
the content of `*value` afterwards. -/
def boolean_keyval (field_ptr : List Char) (value : Int) : Int × Int :=
  let test := field_ptr.map toupper
  if streq test ['Y'] || streq test ['O', 'N'] || streq test ['Y', 'E', 'S']
      || streq test ['T', 'R', 'U', 'E'] then (1, TRUE)
  else if streq test ['N'] || streq test ['N', 'O'] || streq test ['O', 'F', 'F']
      || streq test ['F', 'A', 'L', 'S', 'E'] then (1, FALSE)
  else (0, value)

/-- The characters `"0123456789.+-"` that `lat_lon_keyval` takes a number to
be made of. -/
def number_chars : List Char :=
  ['0', '1', '2', '3', '4', '5', '6', '7', '8', '9', '.', '+', '-']

/-- A loop `while (pos > field_ptr && test(*--pos));`: the offset `pos` is
stepped back one character at a time, each character stepped onto being
tested, until one fails the test or the start of the string is reached. -/
def step_back (test : Char → Bool) (field_ptr : List Char) : Nat → Nat
  | 0 => 0
  | pos + 1 => if test (field_ptr.getD pos '\x00') then step_back test field_ptr pos else pos

/-- The function `lat_lon_keyval(field_ptr, designators, value)`: the returned
count and the content of `*value` afterwards. A run of 80 or more number
characters overflows the array `number[80]`: no result. -/
def lat_lon_keyval {F : Type} (A : C_float F) (scan : Scan_f F)
    (field_ptr designators : List Char) (value : F) : Option (Int × F) :=
  let end_ : Nat :=
    match strchr field_ptr '\n' with
    | none => field_ptr.length
    | some e => e
  match strpbrk field_ptr designators with
  | none => some (0, value)
  | some pos =>
    if pos > end_ then some (0, value)
    else
      let hemi := toupper (field_ptr.getD pos '\x00')
      let pos := step_back isspace field_ptr pos
      let pos := step_back (fun c => (strchr number_chars c).isSome) field_ptr pos
      let pos := if (strchr number_chars (field_ptr.getD pos '\x00')).isNone then pos + 1 else pos
      let len := strspn (field_ptr.drop pos) number_chars
      if len ≤ 0 then some (0, value)
      else if len ≥ 80 then none
      else
        let number := (field_ptr.drop pos).take len
        match sscanf_f scan number value with
        | (status, value1) =>
          if status ≠ 1 then some (0, value1)
          else if 'W' = hemi ∨ 'S' = hemi then some (1, A.neg value1)
          else some (1, value1)

/-- What the `void *value` of `get_value_keyval` points to: a `float` for the
latitude and longitude formats, a `bool` for the boolean format. -/
inductive Value (F : Type) where
  | float (x : F)
  | bool (b : Int)
  deriving DecidableEq

/-- What `keyval.c` takes from outside: the designator strings
`keyval_LATITUDE` and `keyval_LONGITUDE` of `keyval.h`, which is not among the
sources, and the C library's `sscanf` with a format chosen by the caller. -/
structure Keyval_host (F : Type) where
  keyval_LATITUDE : List Char
  keyval_LONGITUDE : List Char
  sscanf : List Char → List Char → Value F → Int × Value F

/-- The decoding step of `get_value_keyval`: the status and the content of
`*value` afterwards. Handing a decoder a pointer to an object of the other
type has no result. -/
def decode_keyval {F : Type} (A : C_float F) (scan : Scan_f F) (host : Keyval_host F)
    (field_ptr format : List Char) (value : Value F) : Option (Int × Value F) :=
  if streq ['%', 'l', 'a', 't'] format then
    match value with
    | Value.float x =>
      (lat_lon_keyval A scan field_ptr host.keyval_LATITUDE x).map
        (fun r => (r.1, Value.float r.2))
    | Value.bool _ => none
  else if streq ['%', 'l', 'o', 'n'] format then
    match value with
    | Value.float x =>
      (lat_lon_keyval A scan field_ptr host.keyval_LONGITUDE x).map
        (fun r => (r.1, Value.float r.2))
    | Value.bool _ => none
  else if streq ['%', 'b', 'o', 'o', 'l'] format then
    match value with
    | Value.bool b => some ((boolean_keyval field_ptr b).1, Value.bool (boolean_keyval field_ptr b).2)
    | Value.float _ => none
  else some (host.sscanf field_ptr format value)

/-- The function `get_value_keyval(label, keyword, format, value,
default_string)`: the returned `bool`, the content of `*value` afterwards and
the lines written to `stderr`. -/
def get_value_keyval {F : Type} (A : C_float F) (scan : Scan_f F) (host : Keyval_host F)
    (label keyword format : List Char) (value : Value F)
    (default_string : Option (List Char)) : Option (Int × Value F × List Diag) :=
  match get_field_keyval label keyword default_string with
  | none => none
  | some (none, err) => some (FALSE, value, err)
  | some (some field_ptr, err) =>
    match decode_keyval A scan host field_ptr format value with
    | none => none
    | some (status, value1) =>
      if 1 ≠ status then
        some (FALSE, value1,
          err ++ [Diag.fprintf "get_value_keyval: can't retrieve value <%s>\n" [keyword]])
      else some (TRUE, value1, err)

/-! ## Vocabulary for statements about grid files -/

/-- The leading numeric fields of a line as `sscanf(line, "%f %f", ...)`
converts them: no value, one value or two values. -/
def numeric_fields {F : Type} (A : C_float F) (scan : Scan_f F) (line : List Char) : List F :=
  match sscanf_f_f scan line (A.of_nat 0) (A.of_nat 0) with
  | (ios, x, y) => if ios ≥ 2 then [x, y] else if ios ≥ 1 then [x] else []

/-- The stream a grid file is read from, as `search_path_fopen` hands it over:
nothing read yet, both indicators clear. -/
def opened (text : List Char) : FILE := { data := text, eof := false, err := false }

/-- The projection file name `init_grid` takes from a grid file: the first
word of what its first `fgets` call reads. -/
def mpp_filename {F : Type} (auto : Locals F) (text : List Char) : List Char :=
  (sscanf_s (fgets auto.readln 256 (opened text)).1 auto.filename).2

/-- The stream after `n` successive calls `fgets(readln, 256, fp)`. -/
def after_fgets : Nat → FILE → FILE
  | 0, fp => fp
  | n + 1, fp => after_fgets n (fgets [] 256 fp).2

/-! ## Two arithmetics to evaluate with -/

/-- Exact arithmetic: a `float` is a rational number and no operation rounds.
There is neither an infinity nor a NaN; the quotient by zero is the `0` of
the total division of `ℚ`, so statements made of this arithmetic that divide
assume the divisor is not zero. -/
def exact_arith : C_float ℚ where
  add x y := x + y
  sub x y := x - y
  mul x y := x * y
  div x y := x / y
  neg x := -x
  of_nat n := (n : ℚ)
  half x := x / 2
  le_neg_half x := decide (x ≤ -0.5)
  ge_minus_half x e := decide (x ≥ e - 0.5)

/-- The values of exact arithmetic extended with the special values of IEEE
754: NaN, the two infinities (`inf true` is the negative one) and the finite
values. Zero carries no sign. -/
inductive cfloat where
  | nan
  | inf (negative : Bool)
  | fin (q : ℚ)
  deriving DecidableEq

namespace cfloat

/-- The negation `-x`. -/
def neg : cfloat → cfloat
  | nan => nan
  | inf a => inf (!a)
  | fin q => fin (-q)

/-- The sum `x + y`: infinities of opposite sign add up to NaN. -/
def add : cfloat → cfloat → cfloat
  | nan, _ => nan
  | _, nan => nan
  | inf a, inf b => if a = b then inf a else nan
  | inf a, fin _ => inf a
  | fin _, inf b => inf b
  | fin p, fin q => fin (p + q)

/-- The difference `x - y`. -/
def sub (x y : cfloat) : cfloat := add x (neg y)

/-- The product `x * y`: zero times an infinity is NaN. -/
def mul : cfloat → cfloat → cfloat
  | nan, _ => nan
  | _, nan => nan
  | inf a, inf b => inf (a != b)
  | inf a, fin q => if q = 0 then nan else inf (a != decide (q < 0))
  | fin p, inf b => if p = 0 then nan else inf (decide (p < 0) != b)
  | fin p, fin q => fin (p * q)

/-- The quotient `x / y`: a non-zero value over zero is an infinity of the
sign of the value; zero over zero and an infinity over an infinity are NaN. -/
def div : cfloat → cfloat → cfloat
  | nan, _ => nan
  | _, nan => nan
  | inf _, inf _ => nan
  | inf a, fin q => inf (a != decide (q < 0))
  | fin _, inf _ => fin 0
  | fin p, fin q =>
    if q = 0 then (if p = 0 then nan else inf (decide (p < 0))) else fin (p / q)

/-- The comparison `x <= y`: false when either side is NaN. -/
def le : cfloat → cfloat → Bool
  | nan, _ => false
  | _, nan => false
  | inf a, inf b => a || !b
  | inf a, fin _ => a
  | fin _, inf b => !b
  | fin p, fin q => decide (p ≤ q)

/-- The comparison `x < y`: false when either side is NaN. -/
def lt : cfloat → cfloat → Bool
  | nan, _ => false
  | _, nan => false
  | inf a, inf b => a && !b
  | inf a, fin _ => a
  | fin _, inf b => !b
  | fin p, fin q => decide (p < q)

end cfloat

/-- Extended arithmetic: exact on finite values, with the infinities and NaN
behaving as IEEE 754 prescribes. -/
def extended_arith : C_float cfloat where
  add := cfloat.add
  sub := cfloat.sub
  mul := cfloat.mul
  div := cfloat.div
  neg := cfloat.neg
  of_nat n := cfloat.fin (n : ℚ)
  half x := cfloat.div x (cfloat.fin 2)
  le_neg_half x := cfloat.le x (cfloat.fin (-0.5))
  ge_minus_half x e := cfloat.le (cfloat.sub e (cfloat.fin 0.5)) x

/-! ## Concrete data -/

/-- A projection instance to evaluate the grid layer on: the plate carrée
`u = lon`, `v = lat`, defined for latitudes from -90 to 90. -/
def plate_carree : mapx_class ℚ where
  forward_mapx lat lon := if -90 ≤ lat ∧ lat ≤ 90 then (0, lon, lat) else (-1, 0, 0)
  inverse_mapx u v lat lon := if -90 ≤ v ∧ v ≤ 90 then (0, v, u) else (-1, lat, lon)
  within_mapx lat lon := if -90 ≤ lat ∧ lat ≤ 90 ∧ -180 ≤ lon ∧ lon ≤ 180 then TRUE else FALSE

/-- A ten by ten grid over `plate_carree`, two pixels per degree, with the
map origin at pixel (5, 5). -/
def ten_by_ten : grid_class ℚ where
  gpd_file := { data := [], eof := false, err := false }
  gpd_filename := "ten.gpd".toList
  mapx := plate_carree
  cols := 10
  rows := 10
  cols_per_map_unit := 2
  rows_per_map_unit := 2
  map_origin_col := 5
  map_origin_row := 5

/-- The projection `u = lon`, `v = lat` over the extended values, defined
everywhere. -/
def plain_projection : mapx_class cfloat where
  forward_mapx lat lon := (0, lon, lat)
  inverse_mapx u v _ _ := (0, v, u)
  within_mapx _ _ := TRUE

/-- A grid over `plain_projection` with the given extent, one pixel per map
unit, with the map origin at pixel (0, 0). -/
def unit_grid (cols rows : cfloat) : grid_class cfloat where
  gpd_file := { data := [], eof := false, err := false }
  gpd_filename := "unit.gpd".toList
  mapx := plain_projection
  cols := cols
  rows := rows
  cols_per_map_unit := cfloat.fin 1
  rows_per_map_unit := cfloat.fin 1
  map_origin_col := cfloat.fin 0
  map_origin_row := cfloat.fin 0

/-- A host with a single grid file of the given text, on which every
projection file name initialises `plate_carree`. -/
def single_file_host (text : List Char) : Host ℚ where
  MAX_STRING := 256
  search_path_fopen _ _ _ := some text
  init_mapx _ := some plate_carree

/-- A first line too long for one `fgets` call: 255 letters, then ` 7 7`. -/
def long_first_line : List Char := List.replicate 255 'a' ++ [' ', '7', ' ', '7']

/-- A grid file that is a single line: a projection file name followed by
1100 blanks and a newline. -/
def single_long_line : List Char := "p.mpp".toList ++ List.replicate 1100 ' ' ++ ['\n']

/-- A keyval host with the designator strings `NSns` and `EWew`, whose generic
`sscanf` converts nothing. -/
def sample_keyval : Keyval_host ℚ where
  keyval_LATITUDE := ['N', 'S', 'n', 's']
  keyval_LONGITUDE := ['E', 'W', 'e', 'w']
  sscanf _ _ value := (0, value)

/-- A label with a latitude, a longitude and a flag. -/
def sample_label : List Char :=
  "lat: 12.5N ; lon: 3 W\nflag: yes\n".toList

/-- Automatic variables holding nothing in particular. -/
def no_locals : Locals ℚ := { f1 := 0, f2 := 0, filename := [], readln := [] }

/-! ## The grid transformations -/

theorem TRUE_ne_FALSE : TRUE ≠ FALSE := by decide

/-- What `forward_grid` does once the projection has answered with status 0,
in any arithmetic. -/
theorem forward_grid_of_status_zero {F : Type} (A : C_float F) (this : grid_class F)
    (lat lon r s u v : F) (h : this.mapx.forward_mapx lat lon = (0, u, v)) :
    forward_grid A this lat lon r s =
      (if (A.le_neg_half (A.add this.map_origin_col (A.mul u this.cols_per_map_unit))
            || A.ge_minus_half (A.add this.map_origin_col (A.mul u this.cols_per_map_unit))
                this.cols
            || A.le_neg_half (A.sub this.map_origin_row (A.mul v this.rows_per_map_unit))
            || A.ge_minus_half (A.sub this.map_origin_row (A.mul v this.rows_per_map_unit))
                this.rows) = true
        then FALSE else TRUE,
       A.add this.map_origin_col (A.mul u this.cols_per_map_unit),
       A.sub this.map_origin_row (A.mul v this.rows_per_map_unit)) := by
  unfold forward_grid
  rw [h]
  simp only [ne_eq, not_true_eq_false, if_false]
  split_ifs <;> rfl

/-- What `forward_grid` does once the projection has answered with status 0,
in exact arithmetic. -/
theorem forward_grid_exact (this : grid_class ℚ) (lat lon r s u v : ℚ)
    (h : this.mapx.forward_mapx lat lon = (0, u, v)) :
    forward_grid exact_arith this lat lon r s =
      (if this.map_origin_col + u * this.cols_per_map_unit ≤ -0.5
            ∨ this.map_origin_col + u * this.cols_per_map_unit ≥ this.cols - 0.5
            ∨ this.map_origin_row - v * this.rows_per_map_unit ≤ -0.5
            ∨ this.map_origin_row - v * this.rows_per_map_unit ≥ this.rows - 0.5
        then FALSE else TRUE,
       this.map_origin_col + u * this.cols_per_map_unit,
       this.map_origin_row - v * this.rows_per_map_unit) := by
  rw [forward_grid_of_status_zero exact_arith this lat lon r s u v h]
  simp only [exact_arith, Bool.or_eq_true, decide_eq_true_eq, or_assoc]

theorem cfloat.le_eq_false_iff (x y : cfloat) (hx : x ≠ cfloat.nan) (hy : y ≠ cfloat.nan) :
    cfloat.le x y = false ↔ cfloat.lt y x = true := by
  cases x with
  | nan => exact absurd rfl hx
  | inf a =>
    cases y with
    | nan => exact absurd rfl hy
    | inf b => cases a <;> cases b <;> simp [cfloat.le, cfloat.lt]
    | fin q => cases a <;> simp [cfloat.le, cfloat.lt]
  | fin p =>
    cases y with
    | nan => exact absurd rfl hy
    | inf b => cases b <;> simp [cfloat.le, cfloat.lt]
    | fin q => simp [cfloat.le, cfloat.lt]

theorem cfloat.sub_fin_ne_nan (e : cfloat) (q : ℚ) (he : e ≠ cfloat.nan) :
    cfloat.sub e (cfloat.fin q) ≠ cfloat.nan := by
  cases e with
  | nan => exact absurd rfl he
  | inf a => simp [cfloat.sub, cfloat.neg, cfloat.add]
  | fin p => simp [cfloat.sub, cfloat.neg, cfloat.add]

theorem cfloat.ne_nan_of_lt (x y : cfloat) (h : cfloat.lt x y = true) :
    x ≠ cfloat.nan ∧ y ≠ cfloat.nan := by
  cases x <;> cases y <;> simp [cfloat.lt] at h ⊢

theorem cfloat.le_self (x : cfloat) (hx : x ≠ cfloat.nan) : cfloat.le x x = true := by
  cases x with
  | nan => exact absurd rfl hx
  | inf a => cases a <;> simp [cfloat.le]
  | fin p => simp [cfloat.le]

/-- What `forward_grid` does once the projection has answered with status 0,
in an arithmetic on the extended values whose two comparisons are the exact
ones, whatever its sums and products are. -/
theorem forward_grid_compared (A : C_float cfloat)
    (hle : ∀ x, A.le_neg_half x = cfloat.le x (cfloat.fin (-0.5)))
    (hge : ∀ x e, A.ge_minus_half x e = cfloat.le (cfloat.sub e (cfloat.fin 0.5)) x)
    (this : grid_class cfloat) (lat lon r s u v : cfloat)
    (h : this.mapx.forward_mapx lat lon = (0, u, v)) :
    forward_grid A this lat lon r s =
      (if cfloat.le (A.add this.map_origin_col (A.mul u this.cols_per_map_unit))
              (cfloat.fin (-0.5)) = true
            ∨ cfloat.le (cfloat.sub this.cols (cfloat.fin 0.5))
              (A.add this.map_origin_col (A.mul u this.cols_per_map_unit)) = true
            ∨ cfloat.le (A.sub this.map_origin_row (A.mul v this.rows_per_map_unit))
              (cfloat.fin (-0.5)) = true
            ∨ cfloat.le (cfloat.sub this.rows (cfloat.fin 0.5))
              (A.sub this.map_origin_row (A.mul v this.rows_per_map_unit)) = true
        then FALSE else TRUE,
       A.add this.map_origin_col (A.mul u this.cols_per_map_unit),
       A.sub this.map_origin_row (A.mul v this.rows_per_map_unit)) := by
  rw [forward_grid_of_status_zero A this lat lon r s u v h]
  simp only [hle, hge, Bool.or_eq_true, or_assoc]

/-- C1. Whenever the projection's forward transform returns status 0 with
planar result `(u, v)`, `forward_grid` writes
`r = map_origin_col + u * cols_per_map_unit` and
`s = map_origin_row - v * rows_per_map_unit`, in or out of bounds alike. -/
theorem forward_grid_coordinates (this : grid_class ℚ) (lat lon r s u v : ℚ)
    (h : this.mapx.forward_mapx lat lon = (0, u, v)) :
    (forward_grid exact_arith this lat lon r s).2 =
      (this.map_origin_col + u * this.cols_per_map_unit,
       this.map_origin_row - v * this.rows_per_map_unit) := by
  rw [forward_grid_exact this lat lon r s u v h]

theorem forward_grid_coordinates_witness :
    ten_by_ten.mapx.forward_mapx 1 7 = (0, 7, 1) ∧
    (forward_grid exact_arith ten_by_ten 1 7 0 0).2 =
      (ten_by_ten.map_origin_col + 7 * ten_by_ten.cols_per_map_unit,
       ten_by_ten.map_origin_row - 1 * ten_by_ten.rows_per_map_unit) :=
  ⟨by decide!, forward_grid_coordinates ten_by_ten 1 7 0 0 7 1 (by decide!)⟩

/-- C2, as the code has it. Take any arithmetic on the extended values whose
two comparisons are the exact ones, a comparison with NaN being false,
whatever its sums and products round to. When the projection status is 0,
`forward_grid` returns `TRUE` exactly when none of its four comparisons
`r <= -0.5`, `r >= cols - 0.5`, `s <= -0.5`, `s >= rows - 0.5` holds for the
`r, s` it wrote, and `FALSE` otherwise. When none of `r`, `s`, `cols`, `rows`
is NaN that is exactly when `-0.5 < r < cols - 0.5` and
`-0.5 < s < rows - 0.5`; so with `cols = 10` and `s` inside its range,
`r = -0.5` and `r = 9.5` are out of bounds and every `r` strictly between
them is in bounds. -/
theorem forward_grid_bounds (A : C_float cfloat)
    (hle : ∀ x, A.le_neg_half x = cfloat.le x (cfloat.fin (-0.5)))
    (hge : ∀ x e, A.ge_minus_half x e = cfloat.le (cfloat.sub e (cfloat.fin 0.5)) x)
    (this : grid_class cfloat) (lat lon r s u v : cfloat)
    (h : this.mapx.forward_mapx lat lon = (0, u, v)) :
    ((forward_grid A this lat lon r s).1 = TRUE ↔
        cfloat.le (forward_grid A this lat lon r s).2.1 (cfloat.fin (-0.5)) = false
        ∧ cfloat.le (cfloat.sub this.cols (cfloat.fin 0.5))
            (forward_grid A this lat lon r s).2.1 = false
        ∧ cfloat.le (forward_grid A this lat lon r s).2.2 (cfloat.fin (-0.5)) = false
        ∧ cfloat.le (cfloat.sub this.rows (cfloat.fin 0.5))
            (forward_grid A this lat lon r s).2.2 = false)
    ∧ ((forward_grid A this lat lon r s).1 = TRUE
        ∨ (forward_grid A this lat lon r s).1 = FALSE)
    ∧ ((forward_grid A this lat lon r s).2.1 ≠ cfloat.nan
        → (forward_grid A this lat lon r s).2.2 ≠ cfloat.nan
        → this.cols ≠ cfloat.nan → this.rows ≠ cfloat.nan →
        ((forward_grid A this lat lon r s).1 = TRUE ↔
          cfloat.lt (cfloat.fin (-0.5)) (forward_grid A this lat lon r s).2.1 = true
          ∧ cfloat.lt (forward_grid A this lat lon r s).2.1
              (cfloat.sub this.cols (cfloat.fin 0.5)) = true
          ∧ cfloat.lt (cfloat.fin (-0.5)) (forward_grid A this lat lon r s).2.2 = true
          ∧ cfloat.lt (forward_grid A this lat lon r s).2.2
              (cfloat.sub this.rows (cfloat.fin 0.5)) = true))
    ∧ (this.cols = cfloat.fin 10
        → cfloat.lt (cfloat.fin (-0.5)) (forward_grid A this lat lon r s).2.2 = true
        → cfloat.lt (forward_grid A this lat lon r s).2.2
            (cfloat.sub this.rows (cfloat.fin 0.5)) = true →
        ((forward_grid A this lat lon r s).2.1 = cfloat.fin (-0.5)
          → (forward_grid A this lat lon r s).1 = FALSE)
        ∧ ((forward_grid A this lat lon r s).2.1 = cfloat.fin 9.5
          → (forward_grid A this lat lon r s).1 = FALSE)
        ∧ (cfloat.lt (cfloat.fin (-0.5)) (forward_grid A this lat lon r s).2.1 = true
          → cfloat.lt (forward_grid A this lat lon r s).2.1 (cfloat.fin 9.5) = true
          → (forward_grid A this lat lon r s).1 = TRUE)) := by
  rw [forward_grid_compared A hle hge this lat lon r s u v h]
  simp only
  generalize A.add this.map_origin_col (A.mul u this.cols_per_map_unit) = r1
  generalize A.sub this.map_origin_row (A.mul v this.rows_per_map_unit) = s1
  have hne := TRUE_ne_FALSE
  have key : (if cfloat.le r1 (cfloat.fin (-0.5)) = true
        ∨ cfloat.le (cfloat.sub this.cols (cfloat.fin 0.5)) r1 = true
        ∨ cfloat.le s1 (cfloat.fin (-0.5)) = true
        ∨ cfloat.le (cfloat.sub this.rows (cfloat.fin 0.5)) s1 = true then FALSE else TRUE) = TRUE ↔
      cfloat.le r1 (cfloat.fin (-0.5)) = false
      ∧ cfloat.le (cfloat.sub this.cols (cfloat.fin 0.5)) r1 = false
      ∧ cfloat.le s1 (cfloat.fin (-0.5)) = false
      ∧ cfloat.le (cfloat.sub this.rows (cfloat.fin 0.5)) s1 = false := by
    split_ifs with hb
    · constructor
      · intro hf; exact absurd hf.symm hne
      · rintro ⟨h1, h2, h3, h4⟩
        rcases hb with hb | hb | hb | hb <;> simp_all
    · simp only [not_or, Bool.not_eq_true] at hb
      exact ⟨fun _ => hb, fun _ => rfl⟩
  have open_form : r1 ≠ cfloat.nan → s1 ≠ cfloat.nan → this.cols ≠ cfloat.nan
      → this.rows ≠ cfloat.nan →
      ((cfloat.le r1 (cfloat.fin (-0.5)) = false
        ∧ cfloat.le (cfloat.sub this.cols (cfloat.fin 0.5)) r1 = false
        ∧ cfloat.le s1 (cfloat.fin (-0.5)) = false
        ∧ cfloat.le (cfloat.sub this.rows (cfloat.fin 0.5)) s1 = false) ↔
       (cfloat.lt (cfloat.fin (-0.5)) r1 = true
        ∧ cfloat.lt r1 (cfloat.sub this.cols (cfloat.fin 0.5)) = true
        ∧ cfloat.lt (cfloat.fin (-0.5)) s1 = true
        ∧ cfloat.lt s1 (cfloat.sub this.rows (cfloat.fin 0.5)) = true)) := by
    intro hr hs hc hw
    rw [cfloat.le_eq_false_iff r1 _ hr (by simp),
      cfloat.le_eq_false_iff _ r1 (cfloat.sub_fin_ne_nan _ _ hc) hr,
      cfloat.le_eq_false_iff s1 _ hs (by simp),
      cfloat.le_eq_false_iff _ s1 (cfloat.sub_fin_ne_nan _ _ hw) hs]
  refine ⟨key, ?_, ?_, ?_⟩
  · split_ifs
    · exact Or.inr rfl
    · exact Or.inl rfl
  · intro hr hs hc hw
    rw [key]
    exact open_form hr hs hc hw
  · intro hc hs1 hs2
    have hs := (cfloat.ne_nan_of_lt _ _ hs1).2
    have hw : this.rows ≠ cfloat.nan := by
      intro e
      rw [e] at hs2
      cases s1 <;> simp [cfloat.sub, cfloat.neg, cfloat.add, cfloat.lt] at hs2
    have hcn : this.cols ≠ cfloat.nan := by rw [hc]; simp
    have e95 : cfloat.sub (cfloat.fin 10) (cfloat.fin 0.5) = cfloat.fin 9.5 := by
      simp only [cfloat.sub, cfloat.neg, cfloat.add]
      norm_num
    refine ⟨?_, ?_, ?_⟩
    · intro hr
      rw [if_pos (Or.inl (by rw [hr]; exact cfloat.le_self _ (by simp)))]
    · intro hr
      rw [if_pos (Or.inr (Or.inl (by rw [hr, hc, e95]; exact cfloat.le_self _ (by simp))))]
    · intro hr1 hr2
      rw [key, open_form (cfloat.ne_nan_of_lt _ _ hr1).2 hs hcn hw, hc, e95]
      exact ⟨hr1, hr2, hs1, by rw [hc, e95] at *; exact hs2⟩

theorem forward_grid_bounds_witness :
    (unit_grid (cfloat.fin 10) (cfloat.fin 10)).mapx.forward_mapx (cfloat.fin (-3)) (cfloat.fin 7)
      = (0, cfloat.fin 7, cfloat.fin (-3)) ∧
    ((forward_grid extended_arith (unit_grid (cfloat.fin 10) (cfloat.fin 10))
        (cfloat.fin (-3)) (cfloat.fin 7) cfloat.nan cfloat.nan).1 = TRUE ↔
      cfloat.lt (cfloat.fin (-0.5)) (forward_grid extended_arith
          (unit_grid (cfloat.fin 10) (cfloat.fin 10))
          (cfloat.fin (-3)) (cfloat.fin 7) cfloat.nan cfloat.nan).2.1 = true
      ∧ cfloat.lt (forward_grid extended_arith (unit_grid (cfloat.fin 10) (cfloat.fin 10))
          (cfloat.fin (-3)) (cfloat.fin 7) cfloat.nan cfloat.nan).2.1
          (cfloat.sub (unit_grid (cfloat.fin 10) (cfloat.fin 10)).cols (cfloat.fin 0.5)) = true
      ∧ cfloat.lt (cfloat.fin (-0.5)) (forward_grid extended_arith
          (unit_grid (cfloat.fin 10) (cfloat.fin 10))
          (cfloat.fin (-3)) (cfloat.fin 7) cfloat.nan cfloat.nan).2.2 = true
      ∧ cfloat.lt (forward_grid extended_arith (unit_grid (cfloat.fin 10) (cfloat.fin 10))
          (cfloat.fin (-3)) (cfloat.fin 7) cfloat.nan cfloat.nan).2.2
          (cfloat.sub (unit_grid (cfloat.fin 10) (cfloat.fin 10)).rows (cfloat.fin 0.5)) = true) :=
  ⟨rfl, (forward_grid_bounds extended_arith (fun _ => rfl) (fun _ _ => rfl)
    (unit_grid (cfloat.fin 10) (cfloat.fin 10))
    (cfloat.fin (-3)) (cfloat.fin 7) cfloat.nan cfloat.nan (cfloat.fin 7) (cfloat.fin (-3))
    rfl).2.2.1 (by decide!) (by decide!) (by decide!) (by decide!)⟩

/-- C2, as the claim has it, fails. On a grid whose `cols` is NaN (ten rows,
one pixel per map unit, origin at pixel (0, 0)) the point at latitude -3,
longitude 7 gets projection status 0 and coordinates `r = 7`, `s = 3`, and
`forward_grid` returns `TRUE` although `r < cols - 0.5` does not hold. On the
ten by ten grid of the same kind a NaN longitude gives a NaN `r`, and
`forward_grid` returns `TRUE` although `-0.5 < r` does not hold. -/
theorem forward_grid_bounds_counterexample :
    ((unit_grid cfloat.nan (cfloat.fin 10)).mapx.forward_mapx
        (cfloat.fin (-3)) (cfloat.fin 7)).1 = 0
    ∧ forward_grid extended_arith (unit_grid cfloat.nan (cfloat.fin 10))
        (cfloat.fin (-3)) (cfloat.fin 7) (cfloat.fin 0) (cfloat.fin 0)
      = (TRUE, cfloat.fin 7, cfloat.fin 3)
    ∧ cfloat.lt (cfloat.fin 7)
        (cfloat.sub (unit_grid cfloat.nan (cfloat.fin 10)).cols (cfloat.fin 0.5)) = false
    ∧ ((unit_grid (cfloat.fin 10) (cfloat.fin 10)).mapx.forward_mapx
        (cfloat.fin (-3)) cfloat.nan).1 = 0
    ∧ forward_grid extended_arith (unit_grid (cfloat.fin 10) (cfloat.fin 10))
        (cfloat.fin (-3)) cfloat.nan (cfloat.fin 0) (cfloat.fin 0)
      = (TRUE, cfloat.nan, cfloat.fin 3)
    ∧ cfloat.lt (cfloat.fin (-0.5)) cfloat.nan = false := by
  decide!

/-- C3, as the code has it. Take any arithmetic on the extended values whose
two comparisons are the exact ones, a comparison with NaN being false,
whatever its sums and products round to. When the projection status is 0, a
point whose column coordinate lies exactly on the lower pixel edge `r = -0.5`
is reported out of bounds, and so is one on the upper edge `r = cols - 0.5`
unless `cols` is NaN: with `s` inside its range and neither `r` nor `cols`
NaN, the accepted column range is the open interval `(-0.5, cols - 0.5)`.
Likewise for rows. -/
theorem forward_grid_pixel_edge (A : C_float cfloat)
    (hle : ∀ x, A.le_neg_half x = cfloat.le x (cfloat.fin (-0.5)))
    (hge : ∀ x e, A.ge_minus_half x e = cfloat.le (cfloat.sub e (cfloat.fin 0.5)) x)
    (this : grid_class cfloat) (lat lon r s u v : cfloat)
    (h : this.mapx.forward_mapx lat lon = (0, u, v)) :
    ((forward_grid A this lat lon r s).2.1 = cfloat.fin (-0.5)
        → (forward_grid A this lat lon r s).1 = FALSE)
    ∧ (this.cols ≠ cfloat.nan
        → (forward_grid A this lat lon r s).2.1
            = cfloat.sub this.cols (cfloat.fin 0.5)
        → (forward_grid A this lat lon r s).1 = FALSE)
    ∧ ((forward_grid A this lat lon r s).2.2 = cfloat.fin (-0.5)
        → (forward_grid A this lat lon r s).1 = FALSE)
    ∧ (this.rows ≠ cfloat.nan
        → (forward_grid A this lat lon r s).2.2
            = cfloat.sub this.rows (cfloat.fin 0.5)
        → (forward_grid A this lat lon r s).1 = FALSE)
    ∧ ((forward_grid A this lat lon r s).2.1 ≠ cfloat.nan
        → this.cols ≠ cfloat.nan
        → cfloat.lt (cfloat.fin (-0.5)) (forward_grid A this lat lon r s).2.2 = true
        → cfloat.lt (forward_grid A this lat lon r s).2.2
            (cfloat.sub this.rows (cfloat.fin 0.5)) = true →
        ((forward_grid A this lat lon r s).1 = TRUE ↔
          cfloat.lt (cfloat.fin (-0.5)) (forward_grid A this lat lon r s).2.1 = true
          ∧ cfloat.lt (forward_grid A this lat lon r s).2.1
              (cfloat.sub this.cols (cfloat.fin 0.5)) = true))
    ∧ ((forward_grid A this lat lon r s).2.2 ≠ cfloat.nan
        → this.rows ≠ cfloat.nan
        → cfloat.lt (cfloat.fin (-0.5)) (forward_grid A this lat lon r s).2.1 = true
        → cfloat.lt (forward_grid A this lat lon r s).2.1
            (cfloat.sub this.cols (cfloat.fin 0.5)) = true →
        ((forward_grid A this lat lon r s).1 = TRUE ↔
          cfloat.lt (cfloat.fin (-0.5)) (forward_grid A this lat lon r s).2.2 = true
          ∧ cfloat.lt (forward_grid A this lat lon r s).2.2
              (cfloat.sub this.rows (cfloat.fin 0.5)) = true)) := by
  rw [forward_grid_compared A hle hge this lat lon r s u v h]
  simp only
  generalize A.add this.map_origin_col (A.mul u this.cols_per_map_unit) = r1
  generalize A.sub this.map_origin_row (A.mul v this.rows_per_map_unit) = s1
  have hne := TRUE_ne_FALSE
  have key : (if cfloat.le r1 (cfloat.fin (-0.5)) = true
        ∨ cfloat.le (cfloat.sub this.cols (cfloat.fin 0.5)) r1 = true
        ∨ cfloat.le s1 (cfloat.fin (-0.5)) = true
        ∨ cfloat.le (cfloat.sub this.rows (cfloat.fin 0.5)) s1 = true then FALSE else TRUE) = TRUE ↔
      cfloat.le r1 (cfloat.fin (-0.5)) = false
      ∧ cfloat.le (cfloat.sub this.cols (cfloat.fin 0.5)) r1 = false
      ∧ cfloat.le s1 (cfloat.fin (-0.5)) = false
      ∧ cfloat.le (cfloat.sub this.rows (cfloat.fin 0.5)) s1 = false := by
    split_ifs with hb
    · constructor
      · intro hf; exact absurd hf.symm hne
      · rintro ⟨h1, h2, h3, h4⟩
        rcases hb with hb | hb | hb | hb <;> simp_all
    · simp only [not_or, Bool.not_eq_true] at hb
      exact ⟨fun _ => hb, fun _ => rfl⟩
  have rows_ne : ∀ x : cfloat, cfloat.lt x (cfloat.sub this.rows (cfloat.fin 0.5)) = true
      → this.rows ≠ cfloat.nan := by
    intro x hx e
    rw [e] at hx
    cases x <;> simp [cfloat.sub, cfloat.neg, cfloat.add, cfloat.lt] at hx
  have cols_ne : ∀ x : cfloat, cfloat.lt x (cfloat.sub this.cols (cfloat.fin 0.5)) = true
      → this.cols ≠ cfloat.nan := by
    intro x hx e
    rw [e] at hx
    cases x <;> simp [cfloat.sub, cfloat.neg, cfloat.add, cfloat.lt] at hx
  refine ⟨?_, ?_, ?_, ?_, ?_, ?_⟩
  · intro hr
    rw [if_pos (Or.inl (by rw [hr]; exact cfloat.le_self _ (by simp)))]
  · intro hc hr
    rw [if_pos (Or.inr (Or.inl (by rw [hr]; exact cfloat.le_self _ (cfloat.sub_fin_ne_nan _ _ hc))))]
  · intro hs
    rw [if_pos (Or.inr (Or.inr (Or.inl (by rw [hs]; exact cfloat.le_self _ (by simp)))))]
  · intro hw hs
    rw [if_pos (Or.inr (Or.inr (Or.inr
      (by rw [hs]; exact cfloat.le_self _ (cfloat.sub_fin_ne_nan _ _ hw)))))]
  · intro hr hc hs1 hs2
    have hs := (cfloat.ne_nan_of_lt _ _ hs1).2
    have hw := rows_ne _ hs2
    rw [key, cfloat.le_eq_false_iff r1 _ hr (by simp),
      cfloat.le_eq_false_iff _ r1 (cfloat.sub_fin_ne_nan _ _ hc) hr,
      cfloat.le_eq_false_iff s1 _ hs (by simp),
      cfloat.le_eq_false_iff _ s1 (cfloat.sub_fin_ne_nan _ _ hw) hs]
    exact ⟨fun hh => ⟨hh.1, hh.2.1⟩, fun hh => ⟨hh.1, hh.2, hs1, hs2⟩⟩
  · intro hs hw hr1 hr2
    have hr := (cfloat.ne_nan_of_lt _ _ hr1).2
    have hc := cols_ne _ hr2
    rw [key, cfloat.le_eq_false_iff r1 _ hr (by simp),
      cfloat.le_eq_false_iff _ r1 (cfloat.sub_fin_ne_nan _ _ hc) hr,
      cfloat.le_eq_false_iff s1 _ hs (by simp),
      cfloat.le_eq_false_iff _ s1 (cfloat.sub_fin_ne_nan _ _ hw) hs]
    exact ⟨fun hh => hh.2.2, fun hh => ⟨hr1, hr2, hh.1, hh.2⟩⟩

theorem forward_grid_pixel_edge_witness :
    (unit_grid (cfloat.fin 10) (cfloat.fin 10)).mapx.forward_mapx
        (cfloat.fin (-3)) (cfloat.fin (-0.5))
      = (0, cfloat.fin (-0.5), cfloat.fin (-3))
    ∧ (forward_grid extended_arith (unit_grid (cfloat.fin 10) (cfloat.fin 10))
        (cfloat.fin (-3)) (cfloat.fin (-0.5)) cfloat.nan cfloat.nan).2.1 = cfloat.fin (-0.5)
    ∧ (forward_grid extended_arith (unit_grid (cfloat.fin 10) (cfloat.fin 10))
        (cfloat.fin (-3)) (cfloat.fin (-0.5)) cfloat.nan cfloat.nan).1 = FALSE :=
  ⟨rfl, by decide!,
    (forward_grid_pixel_edge extended_arith (fun _ => rfl) (fun _ _ => rfl)
      (unit_grid (cfloat.fin 10) (cfloat.fin 10))
      (cfloat.fin (-3)) (cfloat.fin (-0.5)) cfloat.nan cfloat.nan (cfloat.fin (-0.5))
      (cfloat.fin (-3)) rfl).1 (by decide!)⟩

/-- C3, as the claim has it, fails: on the ten-column grid the point at
latitude 1, longitude -11/4 gets projection status 0, column coordinate
exactly `-0.5` and row coordinate `3` (inside `(-0.5, 9.5)`), and
`forward_grid` reports it out of bounds. -/
theorem forward_grid_pixel_edge_counterexample :
    (ten_by_ten.mapx.forward_mapx 1 (-11 / 4)).1 = 0
    ∧ (forward_grid exact_arith ten_by_ten 1 (-11 / 4) 0 0).2.1 = -0.5
    ∧ -0.5 < (forward_grid exact_arith ten_by_ten 1 (-11 / 4) 0 0).2.2
    ∧ (forward_grid exact_arith ten_by_ten 1 (-11 / 4) 0 0).2.2 < ten_by_ten.rows - 0.5
    ∧ ¬ (forward_grid exact_arith ten_by_ten 1 (-11 / 4) 0 0).1 = TRUE := by
  decide!

/-- C4. In any arithmetic, `inverse_grid` hands the projection's inverse
transform exactly `u = (r - map_origin_col) / cols_per_map_unit` and
`v = -(s - map_origin_row) / rows_per_map_unit`, the difference, the negation
and the quotient being the ones the program computes, whatever the quotient by
a zero scale factor is; it returns `FALSE` when that call reports a non-zero
status and otherwise the projection's within-domain answer for the
`(lat, lon)` the inverse produced, and those `(lat, lon)` are what it
outputs. -/
theorem inverse_grid_semantics {F : Type} (A : C_float F) (this : grid_class F)
    (r s lat lon : F) :
    inverse_grid A this r s lat lon =
      (if (this.mapx.inverse_mapx
            (A.div (A.sub r this.map_origin_col) this.cols_per_map_unit)
            (A.div (A.neg (A.sub s this.map_origin_row)) this.rows_per_map_unit) lat lon).1 ≠ 0
        then FALSE
        else this.mapx.within_mapx
          (this.mapx.inverse_mapx
            (A.div (A.sub r this.map_origin_col) this.cols_per_map_unit)
            (A.div (A.neg (A.sub s this.map_origin_row)) this.rows_per_map_unit) lat lon).2.1
          (this.mapx.inverse_mapx
            (A.div (A.sub r this.map_origin_col) this.cols_per_map_unit)
            (A.div (A.neg (A.sub s this.map_origin_row)) this.rows_per_map_unit) lat lon).2.2,
       (this.mapx.inverse_mapx
            (A.div (A.sub r this.map_origin_col) this.cols_per_map_unit)
            (A.div (A.neg (A.sub s this.map_origin_row)) this.rows_per_map_unit) lat lon).2.1,
       (this.mapx.inverse_mapx
            (A.div (A.sub r this.map_origin_col) this.cols_per_map_unit)
            (A.div (A.neg (A.sub s this.map_origin_row)) this.rows_per_map_unit) lat lon).2.2) := by
  unfold inverse_grid
  simp only
  split_ifs <;> rfl

/-- The quotient by a zero scale factor in extended arithmetic: on a grid with
zero scale factors `inverse_grid` hands the projection an infinity and a
NaN. -/
theorem inverse_grid_zero_scale :
    inverse_grid extended_arith
      { gpd_file := opened [], gpd_filename := [], mapx := plain_projection,
        cols := cfloat.fin 10, rows := cfloat.fin 10,
        cols_per_map_unit := cfloat.fin 0, rows_per_map_unit := cfloat.fin 0,
        map_origin_col := cfloat.fin 5, map_origin_row := cfloat.fin 5 }
      (cfloat.fin 7) (cfloat.fin 5) (cfloat.fin 0) (cfloat.fin 0)
      = (TRUE, cfloat.nan, cfloat.inf false) := by
  decide!

/-- C10. When the projection's forward transform returns a non-zero status,
`forward_grid` returns `FALSE` and the caller's `r` and `s` hold what they
held before the call, in any arithmetic. -/
theorem forward_grid_not_representable {F : Type} (A : C_float F) (this : grid_class F)
    (lat lon r s : F) (h : (this.mapx.forward_mapx lat lon).1 ≠ 0) :
    forward_grid A this lat lon r s = (FALSE, r, s) := by
  unfold forward_grid
  split
  next status u v heq =>
    rw [heq] at h
    simp only [ne_eq] at h
    rw [if_pos h]

theorem forward_grid_not_representable_witness :
    (ten_by_ten.mapx.forward_mapx 100 0).1 ≠ 0 ∧
    forward_grid exact_arith ten_by_ten 100 0 8 9 = (FALSE, 8, 9) :=
  ⟨by decide!, forward_grid_not_representable exact_arith ten_by_ten 100 0 8 9 (by decide!)⟩

/-! ## Reading a grid file -/

theorem read_line_fits (l rest : List Char) (k : Nat) (h : '\n' ∉ l) (hk : l.length < k) :
    read_line k (l ++ '\n' :: rest) = (l ++ ['\n'], rest, false) := by
  induction l generalizing k with
  | nil =>
    cases k with
    | zero => simp at hk
    | succ k => simp [read_line]
  | cons c l ih =>
    cases k with
    | zero => simp at hk
    | succ k =>
      have hc : c ≠ '\n' := fun e => h (by simp [e])
      have hl : '\n' ∉ l := fun e => h (List.mem_cons_of_mem _ e)
      have hk2 : l.length < k := by simpa using hk
      simp [read_line, hc, ih k hl hk2]

theorem fgets_fits (buf l rest : List Char) (e r : Bool) (h : '\n' ∉ l) (hk : l.length < 255) :
    fgets buf 256 { data := l ++ '\n' :: rest, eof := e, err := r }
      = (l ++ ['\n'], { data := rest, eof := e, err := r }) := by
  simp [fgets, read_line_fits l rest 255 h hk]

theorem sscanf_f_f_cases {F : Type} (scan : Scan_f F) (line : List Char) :
    (∃ k : Int, k < 1 ∧ ∀ a b, sscanf_f_f scan line a b = (k, a, b))
    ∨ (∃ x, ∀ a b, sscanf_f_f scan line a b = (1, x, b))
    ∨ (∃ x y, ∀ a b, sscanf_f_f scan line a b = (2, x, y)) := by
  unfold sscanf_f_f
  simp only
  split_ifs with h1
  · exact Or.inl ⟨EOF, by decide, fun a b => rfl⟩
  · cases h2 : scan (skip_space (cstr line)) with
    | none => exact Or.inl ⟨0, by decide, fun a b => rfl⟩
    | some p =>
      obtain ⟨x, r⟩ := p
      simp only
      split_ifs with h3
      · exact Or.inr (Or.inl ⟨x, fun a b => rfl⟩)
      · cases h4 : scan (skip_space r) with
        | none => exact Or.inr (Or.inl ⟨x, fun a b => rfl⟩)
        | some q =>
          obtain ⟨y, r2⟩ := q
          exact Or.inr (Or.inr ⟨x, y, fun a b => rfl⟩)

theorem first_field_getD {F : Type} (A : C_float F) (scan : Scan_f F) (line : List Char)
    (a b d : F) :
    (if (sscanf_f_f scan line a b).1 ≥ 1 then (sscanf_f_f scan line a b).2.1 else d)
      = (numeric_fields A scan line).getD 0 d := by
  unfold numeric_fields
  rcases sscanf_f_f_cases scan line with ⟨k, hk, h⟩ | ⟨x, h⟩ | ⟨x, y, h⟩
  · have h1 : ¬ k ≥ 1 := by omega
    have h2 : ¬ k ≥ 2 := by omega
    simp [h, h1, h2]
  · simp [h]
  · simp [h]

theorem second_field_getD {F : Type} (A : C_float F) (scan : Scan_f F) (line : List Char)
    (a b d : F) :
    (if (sscanf_f_f scan line a b).1 ≥ 2 then (sscanf_f_f scan line a b).2.2 else d)
      = (numeric_fields A scan line).getD 1 d := by
  unfold numeric_fields
  rcases sscanf_f_f_cases scan line with ⟨k, hk, h⟩ | ⟨x, h⟩ | ⟨x, y, h⟩
  · have h1 : ¬ k ≥ 1 := by omega
    have h2 : ¬ k ≥ 2 := by omega
    simp [h, h1, h2]
  · simp [h]
  · simp [h]

theorem mpp_filename_fits {F : Type} (auto : Locals F) (l1 rest : List Char)
    (h1 : '\n' ∉ l1) (n1 : l1.length < 255) :
    mpp_filename auto (l1 ++ '\n' :: rest) = (sscanf_s (l1 ++ ['\n']) auto.filename).2 := by
  unfold mpp_filename opened
  rw [fgets_fits _ l1 rest false false h1 n1]

/-- The grid `init_grid` returns for a file whose first four lines each fit
the read buffer, once the projection has initialised. -/
theorem init_grid_four_lines {F : Type} (A : C_float F) (scan : Scan_f F) (host : Host F)
    (auto : Locals F) (name l1 l2 l3 l4 rest : List Char) (mapx : mapx_class F)
    (hopen : host.search_path_fopen (name.take host.MAX_STRING) "PATHGPD" "r"
      = some (l1 ++ '\n' :: (l2 ++ '\n' :: (l3 ++ '\n' :: (l4 ++ '\n' :: rest)))))
    (h1 : '\n' ∉ l1) (n1 : l1.length < 255) (h2 : '\n' ∉ l2) (n2 : l2.length < 255)
    (h3 : '\n' ∉ l3) (n3 : l3.length < 255) (h4 : '\n' ∉ l4) (n4 : l4.length < 255)
    (hproj : host.init_mapx
      (mpp_filename auto (l1 ++ '\n' :: (l2 ++ '\n' :: (l3 ++ '\n' :: (l4 ++ '\n' :: rest)))))
      = some mapx) :
    init_grid A scan host auto name =
      { result := some
          { gpd_file := { data := rest, eof := false, err := false }
            gpd_filename := name.take host.MAX_STRING
            mapx := mapx
            cols := (numeric_fields A scan (l2 ++ ['\n'])).getD 0 (A.of_nat 512)
            rows := (numeric_fields A scan (l2 ++ ['\n'])).getD 1 (A.of_nat 512)
            cols_per_map_unit := (numeric_fields A scan (l3 ++ ['\n'])).getD 0 (A.of_nat 64)
            rows_per_map_unit :=
              (numeric_fields A scan (l3 ++ ['\n'])).getD 1
                ((numeric_fields A scan (l3 ++ ['\n'])).getD 0 (A.of_nat 64))
            map_origin_col :=
              (numeric_fields A scan (l4 ++ ['\n'])).getD 0
                (A.half ((numeric_fields A scan (l2 ++ ['\n'])).getD 0 (A.of_nat 512)))
            map_origin_row :=
              (numeric_fields A scan (l4 ++ ['\n'])).getD 1
                (A.half ((numeric_fields A scan (l2 ++ ['\n'])).getD 1 (A.of_nat 512))) }
        stderr := []
        released := [] } := by
  rw [mpp_filename_fits auto l1 _ h1 n1] at hproj
  unfold init_grid
  simp only [hopen, fgets_fits _ l1 _ false false h1 n1, fgets_fits _ l2 _ false false h2 n2,
    fgets_fits _ l3 _ false false h3 n3, fgets_fits _ l4 _ false false h4 n4, hproj,
    ferror, feof, Bool.or_self, Bool.false_eq_true, if_false]
  simp only [first_field_getD A, second_field_getD A]

theorem sscanf_f_f_blank {F : Type} (scan : Scan_f F) (line : List Char) (a b : F)
    (h : ∀ c ∈ line, isspace c = true) :
    sscanf_f_f scan line a b = (EOF, a, b) := by
  have e : skip_space (cstr line) = [] := by
    unfold skip_space cstr
    rw [List.dropWhile_eq_nil_iff]
    intro c hc
    exact h c (List.takeWhile_subset _ hc)
  unfold sscanf_f_f
  simp only [e, if_true]

theorem read_line_blank (k : Nat) (b rest : List Char) (n : Nat)
    (hb : ∀ c ∈ b, isspace c = true) (hn : n + 1 ≤ b.count '\n') :
    ∃ l b', read_line (k + 1) (b ++ rest) = (l, b' ++ rest, false)
      ∧ (∀ c ∈ l, isspace c = true) ∧ (∀ c ∈ b', isspace c = true) ∧ n ≤ b'.count '\n' := by
  induction k generalizing b with
  | zero =>
    cases b with
    | nil => simp at hn
    | cons c b0 =>
      have hc : isspace c = true := hb c (List.mem_cons_self _ _)
      have hb0 : ∀ x ∈ b0, isspace x = true := fun x hx => hb x (List.mem_cons_of_mem _ hx)
      by_cases e : c = '\n'
      · subst e
        refine ⟨['\n'], b0, by simp [read_line], by simpa using hc, hb0, ?_⟩
        simp at hn; omega
      · refine ⟨[c], b0, by simp [read_line, e], by simpa using hc, hb0, ?_⟩
        rw [List.count_cons_of_ne (Ne.symm e)] at hn
        omega
  | succ k ih =>
    cases b with
    | nil => simp at hn
    | cons c b0 =>
      have hc : isspace c = true := hb c (List.mem_cons_self _ _)
      have hb0 : ∀ x ∈ b0, isspace x = true := fun x hx => hb x (List.mem_cons_of_mem _ hx)
      by_cases e : c = '\n'
      · subst e
        refine ⟨['\n'], b0, by simp [read_line], by simpa using hc, hb0, ?_⟩
        simp at hn; omega
      · rw [List.count_cons_of_ne (Ne.symm e)] at hn
        obtain ⟨l, b', hl, h1, h2, h3⟩ := ih b0 hb0 hn
        refine ⟨c :: l, b', ?_, ?_, h2, h3⟩
        · rw [List.cons_append, read_line, if_neg e, hl]
        · intro x hx
          rcases List.mem_cons.mp hx with hx | hx
          · rw [hx]; exact hc
          · exact h1 x hx

theorem fgets_blank (buf b rest : List Char) (e r : Bool) (n : Nat)
    (hb : ∀ c ∈ b, isspace c = true) (hn : n + 1 ≤ b.count '\n') :
    ∃ l b', fgets buf 256 { data := b ++ rest, eof := e, err := r }
        = (l, { data := b' ++ rest, eof := e, err := r })
      ∧ (∀ c ∈ l, isspace c = true) ∧ (∀ c ∈ b', isspace c = true) ∧ n ≤ b'.count '\n' := by
  obtain ⟨l, b', hl, h1, h2, h3⟩ := read_line_blank 254 b rest n hb hn
  refine ⟨l, b', ?_, h1, h2, h3⟩
  unfold fgets
  simp only [show 256 - 1 = 254 + 1 from rfl, hl]
  simp

theorem fgets_stream (buf : List Char) (n : Nat) (fp : FILE) :
    (fgets buf n fp).2 = (fgets [] n fp).2 := by
  unfold fgets
  rfl

theorem read_line_eof (l : List Char) (k : Nat) (h : '\n' ∉ l) (hk : l.length < k) :
    read_line k l = (l, [], true) := by
  induction l generalizing k with
  | nil =>
    cases k with
    | zero => simp at hk
    | succ k => simp [read_line]
  | cons c l ih =>
    cases k with
    | zero => simp at hk
    | succ k =>
      have hc : c ≠ '\n' := fun e => h (by simp [e])
      have hl : '\n' ∉ l := fun e => h (List.mem_cons_of_mem _ e)
      have hk2 : l.length < k := by simpa using hk
      simp [read_line, hc, ih k hl hk2]

theorem after_fgets_eof (n : Nat) (fp : FILE) (h : fp.eof = true) :
    (after_fgets n fp).eof = true := by
  induction n generalizing fp with
  | zero => exact h
  | succ n ih =>
    rw [after_fgets]
    apply ih
    simp [fgets, h]

theorem exists_first_newline (text : List Char) (h : '\n' ∈ text) :
    ∃ l rest, text = l ++ '\n' :: rest ∧ '\n' ∉ l := by
  induction text with
  | nil => simp at h
  | cons c t ih =>
    by_cases hc : c = '\n'
    · exact ⟨[], t, by simp [hc], by simp⟩
    · have ht : '\n' ∈ t := by
        rcases List.mem_cons.mp h with e | e
        · exact absurd e.symm hc
        · exact e
      obtain ⟨l, rest, e, hl⟩ := ih ht
      refine ⟨c :: l, rest, by simp [e], ?_⟩
      intro hm
      rcases List.mem_cons.mp hm with e1 | e1
      · exact hc e1.symm
      · exact hl e1

/-- With every line of the text shorter than 255 characters, `n` successive
`fgets` calls leave the end-of-file indicator clear exactly when the text has
at least `n` newlines. -/
theorem feof_after_fgets_iff (n : Nat) (text : List Char)
    (hshort : ∀ l : List Char, l <:+: text → '\n' ∉ l → l.length < 255) :
    feof (after_fgets n (opened text)) = false ↔ n ≤ text.count '\n' := by
  induction n generalizing text with
  | zero => simp [after_fgets, opened, feof]
  | succ n ih =>
    rw [after_fgets]
    by_cases hnl : '\n' ∈ text
    · obtain ⟨l, rest, e, hl⟩ := exists_first_newline text hnl
      have hlen : l.length < 255 := hshort l (by rw [e]; exact List.infix_append' [] l _) hl
      have hrest : ∀ l' : List Char, l' <:+: rest → '\n' ∉ l' → l'.length < 255 := by
        intro l' hin hl'
        apply hshort l' _ hl'
        rw [e]
        exact hin.trans ⟨l ++ ['\n'], [], by simp⟩
      have hstep : (fgets [] 256 (opened text)).2 = opened rest := by
        unfold opened
        rw [e, fgets_fits [] l rest false false hl hlen]
      have hcount : text.count '\n' = rest.count '\n' + 1 := by
        rw [e, List.count_append, List.count_cons_self, List.count_eq_zero_of_not_mem hl]
        omega
      rw [hstep, ih rest hrest, hcount]
      omega
    · have hlen : text.length < 255 := hshort text (List.infix_refl _) hnl
      have hstep : ((fgets [] 256 (opened text)).2).eof = true := by
        simp [fgets, opened, read_line_eof text 255 hnl hlen]
      have := after_fgets_eof n _ hstep
      rw [List.count_eq_zero_of_not_mem hnl]
      simp [feof, this]

/-- Whether `init_grid` returns a grid, once the file has opened and the
projection has initialised, is decided by the end-of-file indicator after the
four `fgets` calls. -/
theorem init_grid_outcome {F : Type} (A : C_float F) (scan : Scan_f F) (host : Host F)
    (auto : Locals F) (name text : List Char) (mapx : mapx_class F)
    (hopen : host.search_path_fopen (name.take host.MAX_STRING) "PATHGPD" "r" = some text)
    (hproj : host.init_mapx (mpp_filename auto text) = some mapx) :
    (feof (after_fgets 4 (opened text)) = true →
      (init_grid A scan host auto name).result = none
      ∧ (init_grid A scan host auto name).stderr =
          [Diag.fprintf "init_grid: error reading parameters file.\n" [],
           Diag.fprintf "%s: unexpected end of file.\n" [name]])
    ∧ (feof (after_fgets 4 (opened text)) = false →
      (init_grid A scan host auto name).result.isSome = true) := by
  unfold mpp_filename at hproj
  simp only [after_fgets]
  unfold init_grid
  simp only [hopen]
  unfold opened at hproj ⊢
  rcases hf1 : fgets auto.readln 256 { data := text, eof := false, err := false } with ⟨b1, p1⟩
  rw [hf1] at hproj
  have q1 : (fgets [] 256 { data := text, eof := false, err := false }).2 = p1 := by
    rw [← fgets_stream auto.readln, hf1]
  have r1 : p1.err = false := by
    rw [← q1]; rfl
  rw [q1]
  simp only at hproj ⊢
  rcases hs : sscanf_s b1 auto.filename with ⟨cnt, fname⟩
  rw [hs] at hproj
  simp only at hproj ⊢
  rw [hproj]
  simp only
  rcases hf2 : fgets b1 256 p1 with ⟨b2, p2⟩
  have q2 : (fgets [] 256 p1).2 = p2 := by rw [← fgets_stream b1, hf2]
  have r2 : p2.err = false := by
    rw [← q2, ← r1]; rfl
  rw [q2]
  simp only
  rcases hs2 : sscanf_f_f scan b2 auto.f1 auto.f2 with ⟨i2, x2, y2⟩
  simp only
  rcases hf3 : fgets b2 256 p2 with ⟨b3, p3⟩
  have q3 : (fgets [] 256 p2).2 = p3 := by rw [← fgets_stream b2, hf3]
  have r3 : p3.err = false := by
    rw [← q3, ← r2]; rfl
  rw [q3]
  simp only
  rcases hs3 : sscanf_f_f scan b3 x2 y2 with ⟨i3, x3, y3⟩
  simp only
  rcases hf4 : fgets b3 256 p3 with ⟨b4, p4⟩
  have q4 : (fgets [] 256 p3).2 = p4 := by rw [← fgets_stream b3, hf4]
  have r4 : p4.err = false := by
    rw [← q4, ← r3]; rfl
  rw [q4]
  simp only
  rcases hs4 : sscanf_f_f scan b4 x3 y3 with ⟨i4, x4, y4⟩
  constructor
  · intro heof
    simp [heof]
  · intro heof
    simp [heof, ferror, r4]

/-- C6, as the code has it. For every grid file whose first line is shorter
than 255 characters (so that the first `fgets` call reads it whole), whose
projection initialises and whose lines 2, 3 and 4 are present and hold white
space only, `init_grid` succeeds and the grid has `cols = 512`, `rows = 512`,
`cols_per_map_unit = 64`, `rows_per_map_unit = 64`, `map_origin_col = 256`,
`map_origin_row = 256`. -/
theorem init_grid_default_filling (scan : Scan_f ℚ) (host : Host ℚ) (auto : Locals ℚ)
    (name l1 l2 l3 l4 rest : List Char) (mapx : mapx_class ℚ)
    (hopen : host.search_path_fopen (name.take host.MAX_STRING) "PATHGPD" "r"
      = some (l1 ++ '\n' :: (l2 ++ '\n' :: (l3 ++ '\n' :: (l4 ++ '\n' :: rest)))))
    (h1 : '\n' ∉ l1) (n1 : l1.length < 255)
    (b2 : ∀ c ∈ l2, isspace c = true) (b3 : ∀ c ∈ l3, isspace c = true)
    (b4 : ∀ c ∈ l4, isspace c = true)
    (hproj : host.init_mapx
      (mpp_filename auto (l1 ++ '\n' :: (l2 ++ '\n' :: (l3 ++ '\n' :: (l4 ++ '\n' :: rest)))))
      = some mapx) :
    ∃ g, (init_grid exact_arith scan host auto name).result = some g
      ∧ g.cols = 512 ∧ g.rows = 512
      ∧ g.cols_per_map_unit = 64 ∧ g.rows_per_map_unit = 64
      ∧ g.map_origin_col = 256 ∧ g.map_origin_row = 256 := by
  rw [mpp_filename_fits auto l1 _ h1 n1] at hproj
  have hnl : isspace '\n' = true := by decide
  have hsplit : l2 ++ '\n' :: (l3 ++ '\n' :: (l4 ++ '\n' :: rest))
      = (l2 ++ '\n' :: (l3 ++ '\n' :: (l4 ++ ['\n']))) ++ rest := by simp
  have hblank : ∀ c ∈ l2 ++ '\n' :: (l3 ++ '\n' :: (l4 ++ ['\n'])), isspace c = true := by
    intro c hc
    simp only [List.mem_append, List.mem_cons, List.not_mem_nil, or_false] at hc
    rcases hc with hc | hc | hc | hc | hc | hc
    · exact b2 c hc
    · rw [hc]; exact hnl
    · exact b3 c hc
    · rw [hc]; exact hnl
    · exact b4 c hc
    · rw [hc]; exact hnl
  have hcount : 2 + 1 ≤ (l2 ++ '\n' :: (l3 ++ '\n' :: (l4 ++ ['\n']))).count '\n' := by
    simp only [List.count_append, List.count_cons_self, List.count_nil]
    omega
  obtain ⟨r2, c2, e2, s2, t2, k2⟩ :=
    fgets_blank (l1 ++ ['\n']) _ rest false false 2 hblank hcount
  obtain ⟨r3, c3, e3, s3, t3, k3⟩ := fgets_blank r2 c2 rest false false 1 t2 k2
  obtain ⟨r4, c4, e4, s4, t4, k4⟩ := fgets_blank r3 c3 rest false false 0 t3 k3
  unfold init_grid
  simp only [hopen, fgets_fits _ l1 _ false false h1 n1, hproj, hsplit, e2, e3, e4,
    sscanf_f_f_blank scan _ _ _ s2, sscanf_f_f_blank scan _ _ _ s3, sscanf_f_f_blank scan _ _ _ s4,
    ferror, feof, Bool.or_self, Bool.false_eq_true, if_false]
  refine ⟨_, rfl, ?_, ?_, ?_, ?_, ?_, ?_⟩ <;> simp [EOF, exact_arith] <;> norm_num

theorem init_grid_default_filling_witness :
    ∃ g, (init_grid exact_arith scan_float
          (single_file_host
            (['p', '.', 'm', 'p', 'p'] ++ '\n' :: ([] ++ '\n' :: ([' '] ++ '\n' :: (['\t'] ++ '\n' :: [])))))
          no_locals ['x', '.', 'g', 'p', 'd']).result = some g
      ∧ g.cols = 512 ∧ g.rows = 512
      ∧ g.cols_per_map_unit = 64 ∧ g.rows_per_map_unit = 64
      ∧ g.map_origin_col = 256 ∧ g.map_origin_row = 256 :=
  init_grid_default_filling scan_float
    (single_file_host
      (['p', '.', 'm', 'p', 'p'] ++ '\n' :: ([] ++ '\n' :: ([' '] ++ '\n' :: (['\t'] ++ '\n' :: [])))))
    no_locals ['x', '.', 'g', 'p', 'd'] ['p', '.', 'm', 'p', 'p'] [] [' '] ['\t'] [] plate_carree
    rfl (by decide) (by decide) (by decide) (by decide) (by decide) rfl

/-- C6, as the claim has it, fails. In the file whose first line is
`long_first_line` and whose lines 2, 3 and 4 are empty, the projection
initialises and `init_grid` succeeds, but the second `fgets` call reads the
tail ` 7 7` of the first line: the grid has `cols = 7`, `rows = 7` and its
origin at `(7/2, 7/2)`. -/
theorem init_grid_default_filling_counterexample :
    '\n' ∉ long_first_line
    ∧ (∀ c ∈ ([] : List Char), isspace c = true)
    ∧ ((init_grid exact_arith scan_float
          (single_file_host (long_first_line ++ '\n' :: ([] ++ '\n' :: ([] ++ '\n' :: ([] ++ '\n' :: [])))))
          no_locals ['x', '.', 'g', 'p', 'd']).result.map
        (fun g => (g.cols, g.rows, g.cols_per_map_unit, g.rows_per_map_unit,
          g.map_origin_col, g.map_origin_row)))
      = some (7, 7, 64, 64, 7 / 2, 7 / 2) := by
  refine ⟨by decide, by decide, by decide!⟩

/-- C7, as the code has it. In any arithmetic and with any `%f` conversion:
for every grid file whose first four lines are newline-terminated and shorter
than 255 characters and whose projection initialises, `init_grid` succeeds;
when the conversion takes from the third line the single value `c` and no
second value the grid has `cols_per_map_unit = c` and `rows_per_map_unit = c`,
and when it takes two values `c` and `d` the grid has `cols_per_map_unit = c`
and `rows_per_map_unit = d`. -/
theorem init_grid_row_scale {F : Type} (A : C_float F) (scan : Scan_f F) (host : Host F)
    (auto : Locals F) (name l1 l2 l3 l4 rest : List Char) (mapx : mapx_class F) (c d : F)
    (hopen : host.search_path_fopen (name.take host.MAX_STRING) "PATHGPD" "r"
      = some (l1 ++ '\n' :: (l2 ++ '\n' :: (l3 ++ '\n' :: (l4 ++ '\n' :: rest)))))
    (h1 : '\n' ∉ l1) (n1 : l1.length < 255) (h2 : '\n' ∉ l2) (n2 : l2.length < 255)
    (h3 : '\n' ∉ l3) (n3 : l3.length < 255) (h4 : '\n' ∉ l4) (n4 : l4.length < 255)
    (hproj : host.init_mapx
      (mpp_filename auto (l1 ++ '\n' :: (l2 ++ '\n' :: (l3 ++ '\n' :: (l4 ++ '\n' :: rest)))))
      = some mapx) :
    ∃ g, (init_grid A scan host auto name).result = some g
      ∧ (numeric_fields A scan (l3 ++ ['\n']) = [c] →
          g.cols_per_map_unit = c ∧ g.rows_per_map_unit = c)
      ∧ (numeric_fields A scan (l3 ++ ['\n']) = [c, d] →
          g.cols_per_map_unit = c ∧ g.rows_per_map_unit = d) := by
  rw [init_grid_four_lines A scan host auto name l1 l2 l3 l4 rest mapx hopen h1 n1 h2 n2 h3 n3
    h4 n4 hproj]
  refine ⟨_, rfl, ?_, ?_⟩
  · intro hc
    simp [hc]
  · intro hcd
    simp [hcd]

theorem init_grid_row_scale_witness :
    ∃ g, (init_grid exact_arith scan_float
          (single_file_host
            (['p', '.', 'm', 'p', 'p'] ++ '\n' :: ([] ++ '\n' :: (['1', '0', '0'] ++ '\n' :: ([] ++ '\n' :: [])))))
          no_locals ['x', '.', 'g', 'p', 'd']).result = some g
      ∧ g.cols_per_map_unit = 100 ∧ g.rows_per_map_unit = 100 := by
  obtain ⟨g, hg, hone, _⟩ := init_grid_row_scale exact_arith scan_float
    (single_file_host
      (['p', '.', 'm', 'p', 'p'] ++ '\n' :: ([] ++ '\n' :: (['1', '0', '0'] ++ '\n' :: ([] ++ '\n' :: [])))))
    no_locals ['x', '.', 'g', 'p', 'd'] ['p', '.', 'm', 'p', 'p'] [] ['1', '0', '0'] [] []
    plate_carree 100 0
    rfl (by decide) (by decide) (by decide) (by decide) (by decide) (by decide) (by decide)
    (by decide) rfl
  exact ⟨g, hg, hone (by decide!)⟩

/-- C7, as the claim has it, fails. In the file whose first line is
`long_first_line`, whose second and fourth lines are empty and whose third
line is `100`, `init_grid` succeeds, but it is the empty second line that the
third `fgets` call reads: the grid has `cols_per_map_unit = 64` and
`rows_per_map_unit = 64`. -/
theorem init_grid_row_scale_counterexample :
    numeric_fields exact_arith scan_float (['1', '0', '0'] ++ ['\n']) = [100]
    ∧ ((init_grid exact_arith scan_float
          (single_file_host
            (long_first_line ++ '\n' :: ([] ++ '\n' :: (['1', '0', '0'] ++ '\n' :: ([] ++ '\n' :: [])))))
          no_locals ['x', '.', 'g', 'p', 'd']).result.map
        (fun g => (g.cols_per_map_unit, g.rows_per_map_unit)))
      = some (64, 64) := by
  refine ⟨by decide!, by decide!⟩

/-- C8, as the code has it. In any arithmetic and with any `%f` conversion:
for every grid file whose first four lines are newline-terminated and shorter
than 255 characters and whose projection initialises, `init_grid` succeeds
with the `cols` and `rows` that line 2 produced (given or defaulted to 512);
when the conversion takes no value from the fourth line the grid has
`map_origin_col = cols/2.` and `map_origin_row = rows/2.`, the halves being
the ones the program computes, and when it takes only one value `f` the grid
has `map_origin_col = f` and `map_origin_row = rows/2.`. -/
theorem init_grid_origin_default {F : Type} (A : C_float F) (scan : Scan_f F) (host : Host F)
    (auto : Locals F) (name l1 l2 l3 l4 rest : List Char) (mapx : mapx_class F)
    (hopen : host.search_path_fopen (name.take host.MAX_STRING) "PATHGPD" "r"
      = some (l1 ++ '\n' :: (l2 ++ '\n' :: (l3 ++ '\n' :: (l4 ++ '\n' :: rest)))))
    (h1 : '\n' ∉ l1) (n1 : l1.length < 255) (h2 : '\n' ∉ l2) (n2 : l2.length < 255)
    (h3 : '\n' ∉ l3) (n3 : l3.length < 255) (h4 : '\n' ∉ l4) (n4 : l4.length < 255)
    (hproj : host.init_mapx
      (mpp_filename auto (l1 ++ '\n' :: (l2 ++ '\n' :: (l3 ++ '\n' :: (l4 ++ '\n' :: rest)))))
      = some mapx) :
    ∃ g, (init_grid A scan host auto name).result = some g
      ∧ g.cols = (numeric_fields A scan (l2 ++ ['\n'])).getD 0 (A.of_nat 512)
      ∧ g.rows = (numeric_fields A scan (l2 ++ ['\n'])).getD 1 (A.of_nat 512)
      ∧ (numeric_fields A scan (l4 ++ ['\n']) = [] →
          g.map_origin_col = A.half g.cols ∧ g.map_origin_row = A.half g.rows)
      ∧ (∀ f, numeric_fields A scan (l4 ++ ['\n']) = [f] →
          g.map_origin_col = f ∧ g.map_origin_row = A.half g.rows) := by
  rw [init_grid_four_lines A scan host auto name l1 l2 l3 l4 rest mapx hopen h1 n1 h2 n2 h3 n3
    h4 n4 hproj]
  refine ⟨_, rfl, rfl, rfl, ?_, ?_⟩
  · intro h0
    simp [h0]
  · intro f hf
    simp [hf]

theorem init_grid_origin_default_witness :
    ∃ g, (init_grid exact_arith scan_float
          (single_file_host
            (['p', '.', 'm', 'p', 'p'] ++ '\n' :: (['3', '0', ' ', '4', '0'] ++ '\n'
              :: (['2'] ++ '\n' :: ([] ++ '\n' :: [])))))
          no_locals ['x', '.', 'g', 'p', 'd']).result = some g
      ∧ g.cols = 30 ∧ g.rows = 40 ∧ g.map_origin_col = 15 ∧ g.map_origin_row = 20 := by
  obtain ⟨g, hg, hcols, hrows, hnone, _⟩ := init_grid_origin_default exact_arith scan_float
    (single_file_host
      (['p', '.', 'm', 'p', 'p'] ++ '\n' :: (['3', '0', ' ', '4', '0'] ++ '\n'
        :: (['2'] ++ '\n' :: ([] ++ '\n' :: [])))))
    no_locals ['x', '.', 'g', 'p', 'd'] ['p', '.', 'm', 'p', 'p'] ['3', '0', ' ', '4', '0'] ['2']
    [] [] plate_carree
    rfl (by decide) (by decide) (by decide) (by decide) (by decide) (by decide) (by decide)
    (by decide) rfl
  have e2 : numeric_fields exact_arith scan_float (['3', '0', ' ', '4', '0'] ++ ['\n'])
      = [30, 40] := by decide!
  have e4 : numeric_fields exact_arith scan_float ([] ++ ['\n']) = [] := by decide!
  rw [e2] at hcols hrows
  obtain ⟨hc, hr⟩ := hnone e4
  refine ⟨g, hg, hcols, hrows, ?_, ?_⟩
  · rw [hc, hcols]; simp [exact_arith]; norm_num
  · rw [hr, hrows]; simp [exact_arith]; norm_num

/-- C8, as the claim has it, fails. In the file whose first line is
`long_first_line`, whose lines 2 and 3 are `10 10` and `2 2` and whose fourth
line is empty, `init_grid` succeeds, but the fourth `fgets` call reads the
third line: the grid has `cols = 7`, `rows = 7` and its origin at `(2, 2)`,
not at `(7/2, 7/2)`. -/
theorem init_grid_origin_default_counterexample :
    numeric_fields exact_arith scan_float ([] ++ ['\n']) = []
    ∧ ((init_grid exact_arith scan_float
          (single_file_host
            (long_first_line ++ '\n' :: (['1', '0', ' ', '1', '0'] ++ '\n'
              :: (['2', ' ', '2'] ++ '\n' :: ([] ++ '\n' :: [])))))
          no_locals ['x', '.', 'g', 'p', 'd']).result.map
        (fun g => (g.cols, g.rows, g.map_origin_col, g.map_origin_row)))
      = some (7, 7, 2, 2) := by
  refine ⟨by decide!, by decide!⟩

/-- A text with fewer than four newlines, every line of it shorter than 255
characters, runs out within four `fgets` calls. -/
theorem feof_of_few_lines (text : List Char)
    (hshort : ∀ l : List Char, l <:+: text → '\n' ∉ l → l.length < 255)
    (hfew : text.count '\n' < 4) :
    feof (after_fgets 4 (opened text)) = true := by
  by_contra hne
  have hf : feof (after_fgets 4 (opened text)) = false := by simpa using hne
  have := (feof_after_fgets_iff 4 text hshort).mp hf
  omega

/-- C9, as the code has it. In any arithmetic and with any `%f` conversion:
for every grid file that opens and whose projection initialises, if the
indicator for the end of the file is set once the four `fgets` calls have
been made, then `init_grid` returns `NULL` and writes to `stderr` that the
parameters file could not be read and that the file ended unexpectedly. That
is so whenever every line of the file is shorter than 255 characters and the
file has fewer than four newlines, in particular when the file holds only a
projection-name line shorter than 255 characters, with or without its
newline. -/
theorem init_grid_truncated {F : Type} (A : C_float F) (scan : Scan_f F) (host : Host F)
    (auto : Locals F) (name text : List Char) (mapx : mapx_class F)
    (hopen : host.search_path_fopen (name.take host.MAX_STRING) "PATHGPD" "r" = some text)
    (hproj : host.init_mapx (mpp_filename auto text) = some mapx) :
    (feof (after_fgets 4 (opened text)) = true →
      (init_grid A scan host auto name).result = none
      ∧ (init_grid A scan host auto name).stderr =
          [Diag.fprintf "init_grid: error reading parameters file.\n" [],
           Diag.fprintf "%s: unexpected end of file.\n" [name]])
    ∧ ((∀ l : List Char, l <:+: text → '\n' ∉ l → l.length < 255) → text.count '\n' < 4 →
      (init_grid A scan host auto name).result = none
      ∧ (init_grid A scan host auto name).stderr =
          [Diag.fprintf "init_grid: error reading parameters file.\n" [],
           Diag.fprintf "%s: unexpected end of file.\n" [name]])
    ∧ (∀ l1 : List Char, '\n' ∉ l1 → l1.length < 255 → (text = l1 ++ ['\n'] ∨ text = l1) →
      (init_grid A scan host auto name).result = none
      ∧ (init_grid A scan host auto name).stderr =
          [Diag.fprintf "init_grid: error reading parameters file.\n" [],
           Diag.fprintf "%s: unexpected end of file.\n" [name]]) := by
  obtain ⟨o1, _⟩ := init_grid_outcome A scan host auto name text mapx hopen hproj
  refine ⟨o1, fun hshort hfew => o1 (feof_of_few_lines text hshort hfew), ?_⟩
  intro l1 h1 n1 htext
  apply o1
  apply feof_of_few_lines
  · intro l hl hnl
    rcases htext with e | e
    · rw [e] at hl
      have hle := hl.length_le
      rw [List.length_append, List.length_singleton] at hle
      by_cases heq : l.length = l1.length + 1
      · have := hl.eq_of_length (by rw [List.length_append, List.length_singleton, heq])
        rw [this] at hnl
        exact absurd (by simp) hnl
      · omega
    · rw [e] at hl
      exact lt_of_le_of_lt hl.length_le n1
  · rcases htext with e | e
    · rw [e, List.count_append, List.count_eq_zero_of_not_mem h1]
      decide
    · rw [e, List.count_eq_zero_of_not_mem h1]
      decide

theorem init_grid_truncated_witness :
    (init_grid exact_arith scan_float (single_file_host ['p', '.', 'm', 'p', 'p', '\n']) no_locals
        ['x', '.', 'g', 'p', 'd']).result = none
    ∧ (init_grid exact_arith scan_float (single_file_host ['p', '.', 'm', 'p', 'p', '\n'])
        no_locals ['x', '.', 'g', 'p', 'd']).stderr =
        [Diag.fprintf "init_grid: error reading parameters file.\n" [],
         Diag.fprintf "%s: unexpected end of file.\n" [['x', '.', 'g', 'p', 'd']]] :=
  (init_grid_truncated exact_arith scan_float (single_file_host ['p', '.', 'm', 'p', 'p', '\n'])
    no_locals ['x', '.', 'g', 'p', 'd'] ['p', '.', 'm', 'p', 'p', '\n'] plate_carree rfl rfl).2.2
    ['p', '.', 'm', 'p', 'p'] (by decide) (by decide) (Or.inl rfl)

set_option maxRecDepth 100000 in
/-- C9, as the claim has it, fails. The file `single_long_line` holds only the
projection-name line: `p.mpp`, 1100 blanks and one newline at its end. The
projection initialises, the four `fgets` calls take 255 characters each from
that one line without reaching the end of the file, and `init_grid` returns a
grid filled with the defaults and reports nothing. -/
theorem init_grid_truncated_counterexample :
    single_long_line.count '\n' = 1
    ∧ single_long_line.getLast? = some '\n'
    ∧ ((init_grid exact_arith scan_float (single_file_host single_long_line) no_locals
          ['x', '.', 'g', 'p', 'd']).result.map
        (fun g => (g.cols, g.rows, g.cols_per_map_unit, g.rows_per_map_unit,
          g.map_origin_col, g.map_origin_row)))
      = some (512, 512, 64, 64, 256, 256)
    ∧ (init_grid exact_arith scan_float (single_file_host single_long_line) no_locals
          ['x', '.', 'g', 'p', 'd']).stderr.isEmpty = true := by
  refine ⟨by decide!, by decide!, by decide!, by decide!⟩

/-! ## More on the grid transformations -/

/-- C11. `inverse_grid` does not look at the grid extent: in any arithmetic, a
grid that differs only in `cols` and `rows` gives the same result and the
same `(lat, lon)` for every `(r, s)`. Hence there are a grid and an `(r, s)`
outside the pixel bounds for which `inverse_grid` returns `TRUE` while
`forward_grid` on the resulting `(lat, lon)` returns `FALSE`. -/
theorem inverse_grid_ignores_extent {F : Type} (A : C_float F) (this : grid_class F)
    (c d r s lat lon : F) :
    inverse_grid A { this with cols := c, rows := d } r s lat lon
      = inverse_grid A this r s lat lon
    ∧ ∃ (g : grid_class ℚ) (r1 s1 : ℚ),
        ¬ (-0.5 < r1 ∧ r1 < g.cols - 0.5 ∧ -0.5 < s1 ∧ s1 < g.rows - 0.5)
        ∧ (inverse_grid exact_arith g r1 s1 0 0).1 = TRUE
        ∧ (forward_grid exact_arith g (inverse_grid exact_arith g r1 s1 0 0).2.1
            (inverse_grid exact_arith g r1 s1 0 0).2.2 0 0).1 = FALSE :=
  ⟨rfl, ten_by_ten, 20, 3, by decide!, by decide!, by decide!⟩

/-- C17. `close_grid` called with an absent (`NULL`) handle gives nothing back:
no file is closed, no projection is closed, nothing is freed. A handle that is
present always has its projection closed and its record freed. -/
theorem close_grid_absent {F : Type} :
    close_grid (none : Option (grid_owned F)) = []
    ∧ ∀ g : grid_owned F, Release.free_grid_class ∈ close_grid (some g)
        ∧ Release.close_mapx g.mapx.isSome ∈ close_grid (some g) := by
  refine ⟨rfl, fun g => ?_⟩
  simp [close_grid]

/-- C18. When the projection status is 0 and `cols` is a whole number `N`, with
the row coordinate inside its range: a whole-numbered column coordinate `j` is
in bounds exactly when `0 ≤ j ≤ N - 1`, and every column coordinate within
less than half a pixel of such a `j` is in bounds. Likewise for rows. -/
theorem forward_grid_pixel_centres (this : grid_class ℚ) (lat lon r s u v : ℚ)
    (h : this.mapx.forward_mapx lat lon = (0, u, v)) :
    (∀ N : ℕ, this.cols = N → -0.5 < (forward_grid exact_arith this lat lon r s).2.2
        → (forward_grid exact_arith this lat lon r s).2.2 < this.rows - 0.5 →
        (∀ j : ℤ, (forward_grid exact_arith this lat lon r s).2.1 = j →
          ((forward_grid exact_arith this lat lon r s).1 = TRUE ↔ 0 ≤ j ∧ j ≤ (N : ℤ) - 1))
        ∧ (∀ j : ℤ, 0 ≤ j → j ≤ (N : ℤ) - 1 → |(forward_grid exact_arith this lat lon r s).2.1 - j| < 0.5 →
          (forward_grid exact_arith this lat lon r s).1 = TRUE))
    ∧ (∀ M : ℕ, this.rows = M → -0.5 < (forward_grid exact_arith this lat lon r s).2.1
        → (forward_grid exact_arith this lat lon r s).2.1 < this.cols - 0.5 →
        (∀ i : ℤ, (forward_grid exact_arith this lat lon r s).2.2 = i →
          ((forward_grid exact_arith this lat lon r s).1 = TRUE ↔ 0 ≤ i ∧ i ≤ (M : ℤ) - 1))
        ∧ (∀ i : ℤ, 0 ≤ i → i ≤ (M : ℤ) - 1 → |(forward_grid exact_arith this lat lon r s).2.2 - i| < 0.5 →
          (forward_grid exact_arith this lat lon r s).1 = TRUE)) := by
  rw [forward_grid_exact this lat lon r s u v h]
  simp only
  have hne := TRUE_ne_FALSE
  have key : ∀ (x e : ℚ) (K : ℕ), e = K →
      (∀ j : ℤ, x = j → ((-0.5 < x ∧ x < e - 0.5) ↔ 0 ≤ j ∧ j ≤ (K : ℤ) - 1))
      ∧ (∀ j : ℤ, 0 ≤ j → j ≤ (K : ℤ) - 1 → |x - j| < 0.5 → (-0.5 < x ∧ x < e - 0.5)) := by
    intro x e K he
    subst he
    constructor
    · intro j hj
      subst hj
      constructor
      · rintro ⟨h1, h2⟩
        constructor
        · by_contra hc
          have : j ≤ -1 := by omega
          have : (j : ℚ) ≤ -1 := by exact_mod_cast this
          linarith
        · by_contra hc
          have : (K : ℤ) ≤ j := by omega
          have : (K : ℚ) ≤ (j : ℚ) := by exact_mod_cast this
          linarith
      · rintro ⟨h1, h2⟩
        have h1q : (0 : ℚ) ≤ (j : ℚ) := by exact_mod_cast h1
        have h2q : (j : ℚ) ≤ (K : ℚ) - 1 := by exact_mod_cast h2
        constructor <;> linarith
    · intro j h1 h2 habs
      have h1q : (0 : ℚ) ≤ (j : ℚ) := by exact_mod_cast h1
      have h2q : (j : ℚ) ≤ (K : ℚ) - 1 := by exact_mod_cast h2
      rw [abs_lt] at habs
      constructor <;> linarith
  constructor
  · intro N hN hs1 hs2
    obtain ⟨k1, k2⟩ := key (this.map_origin_col + u * this.cols_per_map_unit) this.cols N hN
    constructor
    · intro j hj
      rw [← k1 j hj]
      split_ifs with hb
      · constructor
        · intro hf; exact absurd hf.symm hne
        · rintro ⟨h1, h2⟩
          rcases hb with hb | hb | hb | hb <;> linarith
      · simp only [not_or, not_le, ge_iff_le] at hb
        exact ⟨fun _ => ⟨hb.1, hb.2.1⟩, fun _ => rfl⟩
    · intro j h1 h2 habs
      obtain ⟨b1, b2⟩ := k2 j h1 h2 habs
      rw [if_neg]
      simp only [not_or, not_le, ge_iff_le]
      exact ⟨b1, b2, hs1, hs2⟩
  · intro M hM hr1 hr2
    obtain ⟨k1, k2⟩ := key (this.map_origin_row - v * this.rows_per_map_unit) this.rows M hM
    constructor
    · intro i hi
      rw [← k1 i hi]
      split_ifs with hb
      · constructor
        · intro hf; exact absurd hf.symm hne
        · rintro ⟨h1, h2⟩
          rcases hb with hb | hb | hb | hb <;> linarith
      · simp only [not_or, not_le, ge_iff_le] at hb
        exact ⟨fun _ => ⟨hb.2.2.1, hb.2.2.2⟩, fun _ => rfl⟩
    · intro i h1 h2 habs
      obtain ⟨b1, b2⟩ := k2 i h1 h2 habs
      rw [if_neg]
      simp only [not_or, not_le, ge_iff_le]
      exact ⟨hr1, hr2, b1, b2⟩

theorem forward_grid_pixel_centres_witness :
    ten_by_ten.mapx.forward_mapx 1 1 = (0, 1, 1)
    ∧ ((forward_grid exact_arith ten_by_ten 1 1 0 0).1 = TRUE ↔ (0 : ℤ) ≤ 7 ∧ (7 : ℤ) ≤ ((10 : ℕ) : ℤ) - 1) :=
  ⟨by decide!,
   ((forward_grid_pixel_centres ten_by_ten 1 1 0 0 1 1 (by decide!)).1 10 (by decide!)
      (by decide!) (by decide!)).1 7 (by decide!)⟩

/-! ## The keyval decoders -/

/-- C12. For every string `f`, `boolean_keyval` returns 1 with value `TRUE`
exactly when the upper-cased `f` is one of `Y`, `ON`, `YES`, `TRUE`; returns 1
with value `FALSE` exactly when it is one of `N`, `NO`, `OFF`, `FALSE`; and in
every other case returns 0 and leaves the value as it was. -/
theorem boolean_keyval_decoding (f : List Char) (value : Int) :
    (boolean_keyval f value = (1, TRUE) ↔
      f.map toupper ∈ [['Y'], ['O', 'N'], ['Y', 'E', 'S'], ['T', 'R', 'U', 'E']])
    ∧ (boolean_keyval f value = (1, FALSE) ↔
      f.map toupper ∈ [['N'], ['N', 'O'], ['O', 'F', 'F'], ['F', 'A', 'L', 'S', 'E']])
    ∧ (f.map toupper ∈ [['Y'], ['O', 'N'], ['Y', 'E', 'S'], ['T', 'R', 'U', 'E']]
        ∨ f.map toupper ∈ [['N'], ['N', 'O'], ['O', 'F', 'F'], ['F', 'A', 'L', 'S', 'E']]
        ∨ boolean_keyval f value = (0, value)) := by
  unfold boolean_keyval streq
  simp only [List.mem_cons, List.mem_singleton, List.not_mem_nil, or_false, Bool.or_eq_true,
    decide_eq_true_eq]
  by_cases h1 : List.map toupper f = ['Y'] ∨ List.map toupper f = ['O', 'N']
      ∨ List.map toupper f = ['Y', 'E', 'S'] ∨ List.map toupper f = ['T', 'R', 'U', 'E']
  · have h1a : ((List.map toupper f = ['Y'] ∨ List.map toupper f = ['O', 'N'])
        ∨ List.map toupper f = ['Y', 'E', 'S']) ∨ List.map toupper f = ['T', 'R', 'U', 'E'] := by
      tauto
    rw [if_pos h1a]
    refine ⟨⟨fun _ => h1, fun _ => rfl⟩, ⟨?_, ?_⟩, Or.inl h1⟩
    · intro hf
      have : TRUE = FALSE := congrArg Prod.snd hf
      exact absurd this TRUE_ne_FALSE
    · intro h2
      rcases h1 with h | h | h | h <;> rcases h2 with g | g | g | g <;>
        rw [h] at g <;> exact absurd g (by decide)
  · have h1a : ¬ (((List.map toupper f = ['Y'] ∨ List.map toupper f = ['O', 'N'])
        ∨ List.map toupper f = ['Y', 'E', 'S']) ∨ List.map toupper f = ['T', 'R', 'U', 'E']) := by
      tauto
    rw [if_neg h1a]
    by_cases h2 : List.map toupper f = ['N'] ∨ List.map toupper f = ['N', 'O']
        ∨ List.map toupper f = ['O', 'F', 'F'] ∨ List.map toupper f = ['F', 'A', 'L', 'S', 'E']
    · have h2a : ((List.map toupper f = ['N'] ∨ List.map toupper f = ['N', 'O'])
          ∨ List.map toupper f = ['O', 'F', 'F'])
          ∨ List.map toupper f = ['F', 'A', 'L', 'S', 'E'] := by
        tauto
      rw [if_pos h2a]
      refine ⟨⟨?_, fun h => absurd h h1⟩, ⟨fun _ => h2, fun _ => rfl⟩, Or.inr (Or.inl h2)⟩
      intro hf
      have : FALSE = TRUE := congrArg Prod.snd hf
      exact absurd this.symm TRUE_ne_FALSE
    · have h2a : ¬ (((List.map toupper f = ['N'] ∨ List.map toupper f = ['N', 'O'])
          ∨ List.map toupper f = ['O', 'F', 'F'])
          ∨ List.map toupper f = ['F', 'A', 'L', 'S', 'E']) := by
        tauto
      rw [if_neg h2a]
      refine ⟨⟨?_, fun h => absurd h h1⟩, ⟨?_, fun h => absurd h h2⟩, Or.inr (Or.inr rfl)⟩
      · intro hf
        have : (0 : Int) = 1 := congrArg Prod.fst hf
        exact absurd this (by decide)
      · intro hf
        have : (0 : Int) = 1 := congrArg Prod.fst hf
        exact absurd this (by decide)

theorem strstr_eq_none (s key : List Char) (h : ¬ key <:+: s) : strstr s key = none := by
  induction s with
  | nil =>
    have hk : key ≠ [] := fun e => h (by rw [e])
    simp [strstr, hk]
  | cons c t ih =>
    rw [List.infix_cons_iff, not_or] at h
    have hp : key.isPrefixOf (c :: t) = false := by
      rw [Bool.eq_false_iff]
      intro e
      exact h.1 (List.isPrefixOf_iff_prefix.mp e)
    simp [strstr, hp, ih h.2]

/-- C14. For every label that does not contain the keyword, `get_field_keyval`
returns a copy equal to the default string when one is supplied, and returns
`NULL`, after reporting that the keyword was not found, when there is no
default. -/
theorem get_field_keyval_missing (label keyword d : List Char) (h : ¬ keyword <:+: label) :
    get_field_keyval label keyword (some d) = some (some d, [])
    ∧ get_field_keyval label keyword none
        = some (none, [Diag.fprintf "get_field_keyval: <%s> not found\n" [keyword]]) := by
  unfold get_field_keyval
  rw [strstr_eq_none label keyword h]
  exact ⟨rfl, rfl⟩

theorem get_field_keyval_missing_witness :
    get_field_keyval ['l', 'a', 't', ':', ' ', '5', 'N'] ['l', 'o', 'n'] (some ['3', 'E'])
      = some (some ['3', 'E'], [])
    ∧ get_field_keyval ['l', 'a', 't', ':', ' ', '5', 'N'] ['l', 'o', 'n'] none
        = some (none, [Diag.fprintf "get_field_keyval: <%s> not found\n" [['l', 'o', 'n']]]) :=
  get_field_keyval_missing ['l', 'a', 't', ':', ' ', '5', 'N'] ['l', 'o', 'n'] ['3', 'E']
    (by decide)

/-- C15 at the failing input. In the label `lat:` newline `lon: 5E` newline
the keyword `lat` occurs followed by a colon and its value field is empty; the
field `get_field_keyval` returns is the whole rest of the label, newlines
included. -/
theorem get_field_keyval_empty_value :
    (get_field_keyval ['l', 'a', 't', ':', '\n', 'l', 'o', 'n', ':', ' ', '5', 'E', '\n']
        ['l', 'a', 't'] none).map Prod.fst
      = some (some ['\n', 'l', 'o', 'n', ':', ' ', '5', 'E', '\n']) := by
  decide

/-- C19 at the failing input. In the field `N12` the designator `N` is
preceded by nothing, yet `lat_lon_keyval` returns 1 and sets the value to 12;
and in `12x N` the designator is preceded, after white space, by `x`, yet the
call returns 1 and sets the value to 12. -/
theorem lat_lon_keyval_accepts_misplaced_number :
    lat_lon_keyval exact_arith scan_float ['N', '1', '2'] ['N', 'S', 'n', 's'] 0 = some (1, 12)
    ∧ lat_lon_keyval exact_arith scan_float ['1', '2', 'x', ' ', 'N'] ['N', 'S', 'n', 's'] 0
        = some (1, 12) := by
  decide!

theorem getD_mem_of_lt (l : List Char) (i : Nat) (h : i < l.length) : l.getD i '\x00' ∈ l := by
  rw [List.getD_eq_getElem _ _ h]
  exact List.getElem_mem _

theorem step_back_skip (test : Char → Bool) (s : List Char) (k n : Nat)
    (h : ∀ i, k ≤ i → i < k + n → test (s.getD i '\x00') = true) :
    step_back test s (k + n) = step_back test s k := by
  induction n with
  | zero => rfl
  | succ n ih =>
    have e : k + (n + 1) = (k + n) + 1 := rfl
    rw [e, step_back, if_pos (h (k + n) (by omega) (by omega))]
    exact ih (fun i h1 h2 => h i h1 (by omega))

theorem step_back_stop (test : Char → Bool) (s : List Char) (k : Nat)
    (h : test (s.getD k '\x00') = false) : step_back test s (k + 1) = k := by
  rw [step_back, h]
  rfl

theorem strpbrk_first (pre tail accept : List Char) (d : Char)
    (hpre : ∀ c ∈ pre, accept.contains c = false) (hd : accept.contains d = true) :
    strpbrk (pre ++ d :: tail) accept = some pre.length := by
  induction pre with
  | nil => simp only [List.nil_append, strpbrk, hd, if_true, List.length_nil]
  | cons c t ih =>
    have hc := hpre c (List.mem_cons_self _ _)
    have ht := ih (fun x hx => hpre x (List.mem_cons_of_mem _ hx))
    simp only [List.cons_append, strpbrk, hc, List.append_eq, ht, Bool.false_eq_true, if_false,
      Option.map_some', List.length_cons]

theorem strchr_offset_ge (pre rest : List Char) (a : Char) (hpre : ∀ c ∈ pre, c ≠ a) :
    ∀ e, strchr (pre ++ rest) a = some e → pre.length ≤ e := by
  induction pre with
  | nil => intro e _; exact Nat.zero_le _
  | cons c t ih =>
    have hc := hpre c (List.mem_cons_self _ _)
    have ht := ih (fun x hx => hpre x (List.mem_cons_of_mem _ hx))
    intro e he
    simp only [List.cons_append, strchr, if_neg hc, List.append_eq] at he
    cases h : strchr (t ++ rest) a with
    | none => rw [h] at he; exact absurd he (by simp)
    | some e1 =>
      rw [h] at he
      simp only [Option.map_some', Option.some.injEq] at he
      have := ht e1 h
      simp only [List.length_cons]
      omega

theorem sscanf_f_literal {F : Type} (scan : Scan_f F) (num : List Char) (value x : F)
    (rest : List Char) (hnum : ∀ c ∈ num, c ∈ number_chars) (hne : num ≠ [])
    (hlit : scan num = some (x, rest)) :
    sscanf_f scan num value = (1, x) := by
  have hc : cstr num = num := by
    unfold cstr
    rw [List.takeWhile_eq_self_iff]
    intro c hc
    have := hnum c hc
    simp only [decide_eq_true_eq]
    intro e
    rw [e] at this
    exact absurd this (by decide)
  have hs : skip_space num = num := by
    cases num with
    | nil => exact absurd rfl hne
    | cons c t =>
      have hcn := hnum c (List.mem_cons_self _ _)
      have hsp : isspace c = false := by
        simp only [number_chars, List.mem_cons, List.not_mem_nil, or_false] at hcn
        rcases hcn with h | h | h | h | h | h | h | h | h | h | h | h | h <;> rw [h] <;> decide
      simp [skip_space, List.dropWhile, hsp]
  unfold sscanf_f
  simp only [hc, hs, if_neg hne, hlit]

theorem toupper_west_south (c : Char) :
    ('W' = toupper c ∨ 'S' = toupper c) ↔ (c = 'W' ∨ c = 'w' ∨ c = 'S' ∨ c = 's') := by
  have hc : c = Char.ofNat c.toNat := (Char.ofNat_toNat c).symm
  by_cases h : c.toNat ≥ 97 ∧ c.toNat ≤ 122
  · obtain ⟨h1, h2⟩ := h
    generalize c.toNat = n at hc h1 h2
    subst hc
    interval_cases n <;> decide
  · have e : toupper c = c := by
      unfold toupper Char.toUpper
      simp only [if_neg h]
    rw [e]
    constructor
    · rintro (h1 | h1)
      · exact Or.inl h1.symm
      · exact Or.inr (Or.inr (Or.inl h1.symm))
    · rintro (h1 | h1 | h1 | h1)
      · exact Or.inl h1.symm
      · exact absurd (by rw [h1]; decide) h
      · exact Or.inr h1.symm
      · exact absurd (by rw [h1]; decide) h

theorem number_char_facts (c : Char) (h : c ∈ number_chars) :
    isspace c = false ∧ c ≠ '\n' ∧ c ≠ '\x00' ∧ (strchr number_chars c).isSome = true
      ∧ number_chars.contains c = true := by
  simp only [number_chars, List.mem_cons, List.not_mem_nil, or_false] at h
  rcases h with h | h | h | h | h | h | h | h | h | h | h | h | h <;> rw [h] <;> decide

/-- C13, as the code has it. In any arithmetic and with any `%f` conversion:
take a field made of a number, white space and a designator, possibly
followed by more text, where the number is a non-empty string over the
characters `0123456789.+-` shorter than 80 characters which the conversion
turns into the value `x`, the white space holds no newline, and the
designator belongs to the supplied set, none of whose characters is a number
character or white space. Then `lat_lon_keyval` returns 1 and sets the value
to `x`, negated exactly when the designator is `W` or `S` in either case. -/
theorem lat_lon_keyval_decoding {F : Type} (A : C_float F) (scan : Scan_f F)
    (num ws tail designators rest : List Char) (d : Char) (value x : F)
    (hnum : ∀ c ∈ num, c ∈ number_chars) (hne : num ≠ []) (hlen : num.length < 80)
    (hlit : scan num = some (x, rest))
    (hws : ∀ c ∈ ws, isspace c = true ∧ c ≠ '\n')
    (hd : d ∈ designators)
    (hdes : ∀ c ∈ designators, c ∉ number_chars ∧ isspace c = false) :
    lat_lon_keyval A scan (num ++ ws ++ d :: tail) designators value
      = some (1, if d = 'W' ∨ d = 'w' ∨ d = 'S' ∨ d = 's' then A.neg x else x) := by
  obtain ⟨m, hm⟩ : ∃ m, num.length = m + 1 := by
    cases num with
    | nil => exact absurd rfl hne
    | cons c t => exact ⟨t.length, rfl⟩
  have hdn : number_chars.contains d = false := by
    have := (hdes d hd).1
    simpa using this
  have hpre : ∀ c ∈ num ++ ws, designators.contains c = false := by
    intro c hc
    rw [List.mem_append] at hc
    have : c ∉ designators := by
      intro hcd
      rcases hc with hc | hc
      · exact (hdes c hcd).1 (hnum c hc)
      · have h1 := (hws c hc).1
        rw [(hdes c hcd).2] at h1
        exact absurd h1 (by simp)
    simpa using this
  have hnl : ∀ c ∈ num ++ ws, c ≠ '\n' := by
    intro c hc
    rw [List.mem_append] at hc
    rcases hc with hc | hc
    · exact (number_char_facts c (hnum c hc)).2.1
    · exact (hws c hc).2
  have e1 : strpbrk (num ++ ws ++ d :: tail) designators = some (num ++ ws).length :=
    strpbrk_first (num ++ ws) tail designators d hpre (by simpa using hd)
  have e2 := strchr_offset_ge (num ++ ws) (d :: tail) '\n' hnl
  have gnum : ∀ i, i < num.length →
      (num ++ ws ++ d :: tail).getD i '\x00' ∈ num := by
    intro i hi
    rw [List.append_assoc, List.getD_append _ _ _ _ hi]
    exact getD_mem_of_lt num i hi
  have gws : ∀ i, num.length ≤ i → i < num.length + ws.length →
      (num ++ ws ++ d :: tail).getD i '\x00' ∈ ws := by
    intro i h1 h2
    rw [List.append_assoc, List.getD_append_right _ _ _ _ h1,
      List.getD_append _ _ _ _ (by omega)]
    exact getD_mem_of_lt ws _ (by omega)
  have gd : (num ++ ws ++ d :: tail).getD (num ++ ws).length '\x00' = d := by
    rw [List.getD_append_right _ _ _ _ (le_refl _)]
    simp
  have e3 : step_back isspace (num ++ ws ++ d :: tail) (num ++ ws).length = m := by
    rw [List.length_append, step_back_skip isspace _ num.length ws.length
      (fun i h1 h2 => (hws _ (gws i h1 h2)).1), hm]
    exact step_back_stop isspace _ m
      (number_char_facts _ (hnum _ (gnum m (by omega)))).1
  have e4 : step_back (fun c => (strchr number_chars c).isSome) (num ++ ws ++ d :: tail) m
      = 0 := by
    have := step_back_skip (fun c => (strchr number_chars c).isSome) (num ++ ws ++ d :: tail) 0 m
      (fun i _ h2 => (number_char_facts _ (hnum _ (gnum i (by omega)))).2.2.2.1)
    rw [Nat.zero_add] at this
    rw [this]
    rfl
  have e5 : (strchr number_chars ((num ++ ws ++ d :: tail).getD 0 '\x00')).isNone = false := by
    have := (number_char_facts _ (hnum _ (gnum 0 (by omega)))).2.2.2.1
    rw [Option.isSome_iff_exists] at this
    obtain ⟨a, ha⟩ := this
    rw [ha]
    rfl
  have e6 : strspn (num ++ ws ++ d :: tail) number_chars = num.length := by
    unfold strspn
    rw [List.append_assoc, List.takeWhile_append_of_pos
      (fun a ha => (number_char_facts a (hnum a ha)).2.2.2.2)]
    have : List.takeWhile (fun c => number_chars.contains c) (ws ++ d :: tail) = [] := by
      cases ws with
      | nil => simp only [List.nil_append, List.takeWhile, hdn]
      | cons w t =>
        have hw : number_chars.contains w = false := by
          have h1 := (hws w (List.mem_cons_self _ _)).1
          have : w ∉ number_chars := by
            intro hwn
            rw [(number_char_facts w hwn).1] at h1
            exact absurd h1 (by simp)
          simpa using this
        simp only [List.cons_append, List.takeWhile, hw]
    rw [this, List.append_nil]
  have e7 : List.take num.length (num ++ ws ++ d :: tail) = num := by
    rw [List.append_assoc, List.take_left]
  have e8 := sscanf_f_literal scan num value x rest hnum hne hlit
  unfold lat_lon_keyval
  simp only [e1]
  have hend : ¬ ((num ++ ws).length >
      (match strchr (num ++ ws ++ d :: tail) '\n' with
        | none => (num ++ ws ++ d :: tail).length
        | some e => e)) := by
    cases h : strchr (num ++ ws ++ d :: tail) '\n' with
    | none => simp
    | some e =>
      have := e2 e h
      simp only [gt_iff_lt, not_lt]
      exact this
  rw [if_neg hend]
  simp only [gd, e3, e4, e5, Bool.false_eq_true, if_false, List.drop_zero, e6, e7, e8]
  have h9 : ¬ (num.length ≤ 0) := by omega
  have h10 : ¬ (num.length ≥ 80) := by omega
  simp only [h9, h10, if_false, ne_eq, not_true_eq_false, toupper_west_south]
  split_ifs <;> rfl

theorem lat_lon_keyval_decoding_witness :
    lat_lon_keyval exact_arith scan_float (['1', '2', '.', '5'] ++ [' '] ++ 'w' :: [])
        ['E', 'W', 'e', 'w'] 0
      = some (1, if 'w' = 'W' ∨ 'w' = 'w' ∨ 'w' = 'S' ∨ 'w' = 's'
          then exact_arith.neg (25 / 2) else 25 / 2) :=
  lat_lon_keyval_decoding exact_arith scan_float ['1', '2', '.', '5'] [' '] []
    ['E', 'W', 'e', 'w'] [] 'w' 0 (25 / 2)
    (by decide) (by decide) (by decide) (by decide!) (by decide) (by decide) (by decide)

/-- C13, as the claim has it, fails, in three ways. The field `12`, newline,
`N` is a number, white space and a designator of the set `NSns`, but the
designator lies beyond the first newline and `lat_lon_keyval` returns 0,
leaving the value as it was. The field `12 W` is a number, a blank and the
designator `W` of the set made of a blank and `W`, but the blank is found
first and taken for the designator: the call returns 1 with the value 12, not
negated. The field `15 W` is a number, a blank and the designator `W` of the
set made of `5` and `W`, but the `5` is found first and taken for the
designator: the call returns 1 with the value 15, not negated. -/
theorem lat_lon_keyval_decoding_counterexample :
    ((∀ c ∈ ['1', '2'], c ∈ number_chars)
      ∧ scan_float ['1', '2'] = some (12, [])
      ∧ (∀ c ∈ ['\n'], isspace c = true)
      ∧ 'N' ∈ ['N', 'S', 'n', 's']
      ∧ lat_lon_keyval exact_arith scan_float (['1', '2'] ++ ['\n'] ++ 'N' :: [])
          ['N', 'S', 'n', 's'] 7 = some (0, 7))
    ∧ ((∀ c ∈ [' '], isspace c = true ∧ c ≠ '\n')
      ∧ 'W' ∈ [' ', 'W']
      ∧ lat_lon_keyval exact_arith scan_float (['1', '2'] ++ [' '] ++ 'W' :: [])
          [' ', 'W'] 7 = some (1, 12))
    ∧ ((∀ c ∈ ['1', '5'], c ∈ number_chars)
      ∧ scan_float ['1', '5'] = some (15, [])
      ∧ 'W' ∈ ['5', 'W']
      ∧ lat_lon_keyval exact_arith scan_float (['1', '5'] ++ [' '] ++ 'W' :: [])
          ['5', 'W'] 7 = some (1, 15)) := by
  refine ⟨⟨by decide, by decide!, by decide, by decide, by decide!⟩,
    ⟨by decide, by decide, by decide!⟩, ⟨by decide, by decide!, by decide, by decide!⟩⟩

/-- C16. For the formats `%lat`, `%lon` and `%bool`: when `get_field_keyval`
yields no field, `get_value_keyval` returns `FALSE` and leaves the value as it
was, which is what happens when the keyword is absent and no default is given;
when it yields a field (the keyword's, or the default string), the call
returns `TRUE` exactly when the matching decoder (`lat_lon_keyval` with the
latitude or the longitude designators, or `boolean_keyval`) returns 1 on that
field, and the value holds what the decoder left in it. -/
theorem get_value_keyval_result {F : Type} (A : C_float F) (scan : Scan_f F)
    (host : Keyval_host F) (label keyword : List Char)
    (default_string : Option (List Char)) (x : F) (b : Int) :
    (¬ keyword <:+: label → default_string = none → ∀ format value,
      ∃ err, get_value_keyval A scan host label keyword format value default_string
        = some (FALSE, value, err))
    ∧ (∀ err, get_field_keyval label keyword default_string = some (none, err) →
      ∀ format value, get_value_keyval A scan host label keyword format value default_string
        = some (FALSE, value, err))
    ∧ (∀ field_ptr err,
      get_field_keyval label keyword default_string = some (some field_ptr, err) →
      (∀ status x1, lat_lon_keyval A scan field_ptr host.keyval_LATITUDE x = some (status, x1) →
        ∃ ret err1,
          get_value_keyval A scan host label keyword ['%', 'l', 'a', 't'] (Value.float x) default_string
            = some (ret, Value.float x1, err1)
          ∧ (ret = TRUE ↔ status = 1) ∧ (ret = TRUE ∨ ret = FALSE))
      ∧ (∀ status x1, lat_lon_keyval A scan field_ptr host.keyval_LONGITUDE x = some (status, x1) →
        ∃ ret err1,
          get_value_keyval A scan host label keyword ['%', 'l', 'o', 'n'] (Value.float x) default_string
            = some (ret, Value.float x1, err1)
          ∧ (ret = TRUE ↔ status = 1) ∧ (ret = TRUE ∨ ret = FALSE))
      ∧ (∃ ret err1,
          get_value_keyval A scan host label keyword ['%', 'b', 'o', 'o', 'l'] (Value.bool b)
              default_string
            = some (ret, Value.bool (boolean_keyval field_ptr b).2, err1)
          ∧ (ret = TRUE ↔ (boolean_keyval field_ptr b).1 = 1) ∧ (ret = TRUE ∨ ret = FALSE))) := by
  have hne := TRUE_ne_FALSE
  have fin : ∀ (status : Int) (v : Value F) (err : List Diag),
      ∃ ret err1,
        (if 1 ≠ status then
          some (FALSE, v,
            err ++ [Diag.fprintf "get_value_keyval: can't retrieve value <%s>\n" [keyword]])
         else some (TRUE, v, err)) = some (ret, v, err1)
        ∧ (ret = TRUE ↔ status = 1) ∧ (ret = TRUE ∨ ret = FALSE) := by
    intro status v err
    by_cases hs : status = 1
    · refine ⟨TRUE, err, ?_, ⟨fun _ => hs, fun _ => rfl⟩, Or.inl rfl⟩
      rw [if_neg (by simp [hs])]
    · refine ⟨FALSE,
        err ++ [Diag.fprintf "get_value_keyval: can't retrieve value <%s>\n" [keyword]], ?_,
        ⟨fun h => absurd h.symm hne, fun h => absurd h hs⟩, Or.inr rfl⟩
      rw [if_pos (by intro e; exact hs e.symm)]
  refine ⟨?_, ?_, ?_⟩
  · intro habs hdef format value
    subst hdef
    refine ⟨[Diag.fprintf "get_field_keyval: <%s> not found\n" [keyword]], ?_⟩
    unfold get_value_keyval get_field_keyval
    rw [strstr_eq_none label keyword habs]
  · intro err hf format value
    unfold get_value_keyval
    rw [hf]
  · intro field_ptr err hf
    refine ⟨?_, ?_, ?_⟩
    · intro status x1 hdec
      unfold get_value_keyval
      rw [hf]
      have e : decode_keyval A scan host field_ptr ['%', 'l', 'a', 't'] (Value.float x)
          = some (status, Value.float x1) := by
        simp [decode_keyval, streq, hdec]
      simp only [e]
      exact fin status (Value.float x1) err
    · intro status x1 hdec
      unfold get_value_keyval
      rw [hf]
      have e : decode_keyval A scan host field_ptr ['%', 'l', 'o', 'n'] (Value.float x)
          = some (status, Value.float x1) := by
        simp [decode_keyval, streq, hdec]
      simp only [e]
      exact fin status (Value.float x1) err
    · unfold get_value_keyval
      rw [hf]
      have e : decode_keyval A scan host field_ptr ['%', 'b', 'o', 'o', 'l'] (Value.bool b)
          = some ((boolean_keyval field_ptr b).1, Value.bool (boolean_keyval field_ptr b).2) := by
        simp [decode_keyval, streq]
      simp only [e]
      exact fin _ _ err

theorem get_value_keyval_result_witness :
    ∃ ret err1,
      get_value_keyval exact_arith scan_float sample_keyval sample_label ['l', 'o', 'n']
          ['%', 'l', 'o', 'n'] (Value.float 0) none
        = some (ret, Value.float (-3), err1)
      ∧ (ret = TRUE ↔ (1 : Int) = 1) ∧ (ret = TRUE ∨ ret = FALSE) :=
  ((get_value_keyval_result exact_arith scan_float sample_keyval sample_label ['l', 'o', 'n']
      none 0 0).2.2 ['3', ' ', 'W'] [] rfl).2.1 1 (-3) (by decide!)

/-! ## When `init_grid` succeeds -/

/-- C20. For every grid file that opens, whose projection initialises and whose
lines are shorter than 255 characters (reads do not fault), `init_grid`
returns a grid exactly when the end-of-file indicator is clear after the
fourth line is read, that is, exactly when the file has four newlines, each of
the first four lines ending with one. A file whose fourth line is not
newline-terminated is rejected with the unexpected end-of-file report. -/
theorem init_grid_success_iff {F : Type} (A : C_float F) (scan : Scan_f F) (host : Host F)
    (auto : Locals F) (name text : List Char) (mapx : mapx_class F)
    (hopen : host.search_path_fopen (name.take host.MAX_STRING) "PATHGPD" "r" = some text)
    (hproj : host.init_mapx (mpp_filename auto text) = some mapx)
    (hshort : ∀ l : List Char, l <:+: text → '\n' ∉ l → l.length < 255) :
    ((init_grid A scan host auto name).result.isSome = true
      ↔ feof (after_fgets 4 (opened text)) = false)
    ∧ (feof (after_fgets 4 (opened text)) = false ↔ 4 ≤ text.count '\n')
    ∧ (∀ l1 l2 l3 l4 : List Char, text = l1 ++ '\n' :: (l2 ++ '\n' :: (l3 ++ '\n' :: l4)) →
        '\n' ∉ l1 → '\n' ∉ l2 → '\n' ∉ l3 → '\n' ∉ l4 →
        (init_grid A scan host auto name).result = none
        ∧ (init_grid A scan host auto name).stderr =
            [Diag.fprintf "init_grid: error reading parameters file.\n" [],
             Diag.fprintf "%s: unexpected end of file.\n" [name]]) := by
  obtain ⟨o1, o2⟩ := init_grid_outcome A scan host auto name text mapx hopen hproj
  have hiff := feof_after_fgets_iff 4 text hshort
  refine ⟨⟨?_, o2⟩, hiff, ?_⟩
  · intro hsome
    by_contra hne
    have ht : feof (after_fgets 4 (opened text)) = true := by
      simpa using hne
    rw [(o1 ht).1] at hsome
    exact absurd hsome (by simp)
  · intro l1 l2 l3 l4 e h1 h2 h3 h4
    apply o1
    have hc : text.count '\n' = 3 := by
      rw [e]
      simp only [List.count_append, List.count_cons_self, List.count_eq_zero_of_not_mem h1,
        List.count_eq_zero_of_not_mem h2, List.count_eq_zero_of_not_mem h3,
        List.count_eq_zero_of_not_mem h4]
    by_contra hne
    have hf : feof (after_fgets 4 (opened text)) = false := by
      simpa using hne
    have := hiff.mp hf
    omega

theorem init_grid_success_iff_witness :
    ((init_grid exact_arith scan_float (single_file_host "p.mpp\n1 1\n2 2\n3 3\n".toList) no_locals
        ['x', '.', 'g', 'p', 'd']).result.isSome = true
      ↔ feof (after_fgets 4 (opened "p.mpp\n1 1\n2 2\n3 3\n".toList)) = false)
    ∧ (feof (after_fgets 4 (opened "p.mpp\n1 1\n2 2\n3 3\n".toList)) = false
      ↔ 4 ≤ "p.mpp\n1 1\n2 2\n3 3\n".toList.count '\n') :=
  ⟨(init_grid_success_iff exact_arith scan_float (single_file_host "p.mpp\n1 1\n2 2\n3 3\n".toList) no_locals
      ['x', '.', 'g', 'p', 'd'] "p.mpp\n1 1\n2 2\n3 3\n".toList plate_carree rfl rfl
      (fun _ hl _ => lt_of_le_of_lt hl.length_le (by decide))).1,
   (init_grid_success_iff exact_arith scan_float (single_file_host "p.mpp\n1 1\n2 2\n3 3\n".toList) no_locals
      ['x', '.', 'g', 'p', 'd'] "p.mpp\n1 1\n2 2\n3 3\n".toList plate_carree rfl rfl
      (fun _ hl _ => lt_of_le_of_lt hl.length_le (by decide))).2.1⟩

/-! ## Fields are taken by position -/

theorem numeric_fields_shape {F : Type} (A : C_float F) (scan : Scan_f F) (line : List Char) :
    numeric_fields A scan line = [] ∨ (∃ x, numeric_fields A scan line = [x])
      ∨ ∃ x y, numeric_fields A scan line = [x, y] := by
  unfold numeric_fields
  rcases sscanf_f_f_cases scan line with ⟨k, hk, h⟩ | ⟨x, h⟩ | ⟨x, y, h⟩
  · have h1 : ¬ k ≥ 1 := by omega
    have h2 : ¬ k ≥ 2 := by omega
    simp [h, h1, h2]
  · right; left
    exact ⟨x, by simp [h]⟩
  · right; right
    exact ⟨x, y, by simp [h]⟩

theorem numeric_fields_no_number {F : Type} (A : C_float F) (scan : Scan_f F)
    (line : List Char) (h : scan (skip_space (cstr line)) = none) :
    numeric_fields A scan line = [] := by
  unfold numeric_fields sscanf_f_f
  simp only [h]
  by_cases e : skip_space (cstr line) = []
  · simp only [e, if_true]
    rw [if_neg (by decide), if_neg (by decide)]
  · simp only [e, if_false]
    rw [if_neg (by decide), if_neg (by decide)]

/-- C21, as the code has it. In any arithmetic and with any `%f` conversion:
for every grid file whose first four lines are newline-terminated and shorter
than 255 characters and whose projection initialises, `init_grid` succeeds
and the two parameters loaded from each of lines 2, 3 and 4 are given by the
values the conversion takes from the start of that line alone, in order, a
missing value giving the default (512 and 512; 64 and the loaded column
scale; half the loaded extents). The values taken from a line are none, one
or two. When the conversion fails at the first token of a line no value is
taken from it, whatever follows, and both its parameters take their
defaults. -/
theorem init_grid_fields_by_count {F : Type} (A : C_float F) (scan : Scan_f F) (host : Host F)
    (auto : Locals F) (name l1 l2 l3 l4 rest : List Char) (mapx : mapx_class F)
    (hopen : host.search_path_fopen (name.take host.MAX_STRING) "PATHGPD" "r"
      = some (l1 ++ '\n' :: (l2 ++ '\n' :: (l3 ++ '\n' :: (l4 ++ '\n' :: rest)))))
    (h1 : '\n' ∉ l1) (n1 : l1.length < 255) (h2 : '\n' ∉ l2) (n2 : l2.length < 255)
    (h3 : '\n' ∉ l3) (n3 : l3.length < 255) (h4 : '\n' ∉ l4) (n4 : l4.length < 255)
    (hproj : host.init_mapx
      (mpp_filename auto (l1 ++ '\n' :: (l2 ++ '\n' :: (l3 ++ '\n' :: (l4 ++ '\n' :: rest)))))
      = some mapx) :
    ∃ g, (init_grid A scan host auto name).result = some g
      ∧ (g.cols = (numeric_fields A scan (l2 ++ ['\n'])).getD 0 (A.of_nat 512)
        ∧ g.rows = (numeric_fields A scan (l2 ++ ['\n'])).getD 1 (A.of_nat 512))
      ∧ (g.cols_per_map_unit = (numeric_fields A scan (l3 ++ ['\n'])).getD 0 (A.of_nat 64)
        ∧ g.rows_per_map_unit
            = (numeric_fields A scan (l3 ++ ['\n'])).getD 1 g.cols_per_map_unit)
      ∧ (g.map_origin_col = (numeric_fields A scan (l4 ++ ['\n'])).getD 0 (A.half g.cols)
        ∧ g.map_origin_row = (numeric_fields A scan (l4 ++ ['\n'])).getD 1 (A.half g.rows))
      ∧ (∀ line : List Char, numeric_fields A scan line = []
          ∨ (∃ x, numeric_fields A scan line = [x])
          ∨ ∃ x y, numeric_fields A scan line = [x, y])
      ∧ (scan (skip_space (cstr (l2 ++ ['\n']))) = none →
          g.cols = A.of_nat 512 ∧ g.rows = A.of_nat 512)
      ∧ (scan (skip_space (cstr (l3 ++ ['\n']))) = none →
          g.cols_per_map_unit = A.of_nat 64 ∧ g.rows_per_map_unit = A.of_nat 64)
      ∧ (scan (skip_space (cstr (l4 ++ ['\n']))) = none →
          g.map_origin_col = A.half g.cols ∧ g.map_origin_row = A.half g.rows) := by
  rw [init_grid_four_lines A scan host auto name l1 l2 l3 l4 rest mapx hopen h1 n1 h2 n2 h3 n3
    h4 n4 hproj]
  refine ⟨_, rfl, ⟨rfl, rfl⟩, ⟨rfl, rfl⟩, ⟨rfl, rfl⟩, numeric_fields_shape A scan, ?_, ?_, ?_⟩
  · intro h
    simp [numeric_fields_no_number A scan _ h]
  · intro h
    simp [numeric_fields_no_number A scan _ h]
  · intro h
    simp [numeric_fields_no_number A scan _ h]

theorem init_grid_fields_by_count_witness :
    ∃ g, (init_grid exact_arith scan_float
          (single_file_host
            (['p', '.', 'm', 'p', 'p'] ++ '\n' :: (['a', 'b', 'c', ' ', '5'] ++ '\n'
              :: (['1', '0', '0'] ++ '\n' :: (['7'] ++ '\n' :: [])))))
          no_locals ['x', '.', 'g', 'p', 'd']).result = some g
      ∧ g.cols = 512 ∧ g.rows = 512 := by
  obtain ⟨g, hg, _, _, _, _, hdef, _⟩ := init_grid_fields_by_count exact_arith scan_float
    (single_file_host
      (['p', '.', 'm', 'p', 'p'] ++ '\n' :: (['a', 'b', 'c', ' ', '5'] ++ '\n'
        :: (['1', '0', '0'] ++ '\n' :: (['7'] ++ '\n' :: [])))))
    no_locals ['x', '.', 'g', 'p', 'd'] ['p', '.', 'm', 'p', 'p'] ['a', 'b', 'c', ' ', '5']
    ['1', '0', '0'] ['7'] [] plate_carree
    rfl (by decide) (by decide) (by decide) (by decide) (by decide) (by decide) (by decide)
    (by decide) rfl
  obtain ⟨hc, hr⟩ := hdef (by decide!)
  exact ⟨g, hg, by rw [hc]; simp [exact_arith], by rw [hr]; simp [exact_arith]⟩

/-- C21, as the claim has it, fails. In the file whose first line is
`long_first_line` and whose second line is `abc 5`, no number stands at the
start of line 2, yet `init_grid` loads `cols = 7` and `rows = 7`: the second
`fgets` call reads the tail ` 7 7` of the first line, and line 2 is scanned
for the scale factors. -/
theorem init_grid_fields_by_count_counterexample :
    scan_float (skip_space (cstr (['a', 'b', 'c', ' ', '5'] ++ ['\n']))) = none
    ∧ ((init_grid exact_arith scan_float
          (single_file_host
            (long_first_line ++ '\n' :: (['a', 'b', 'c', ' ', '5'] ++ '\n'
              :: ([] ++ '\n' :: ([] ++ '\n' :: [])))))
          no_locals ['x', '.', 'g', 'p', 'd']).result.map
        (fun g => (g.cols, g.rows, g.cols_per_map_unit, g.rows_per_map_unit)))
      = some (7, 7, 64, 64) := by
  refine ⟨by decide!, by decide!⟩

end Mapx
